import Mathlib

/-!
Verification of the identifier-resolution, transform-composition and
bookmark subsystems of the xeoviz viewer (src/js/viewer.js).

The viewer keeps its mutable state in a set of flat string-keyed JS
objects (`objects`, `types`, `models`, `lights`, `clips`, `annotations`,
the transform maps, ...).  JS objects with non-index string keys
enumerate in insertion order, so every such map is embedded as an
association list `List (String × α)` (or a plain `List String` when only
the key set matters), with JS `delete` as key removal and JS assignment
as update-in-place / append.  Numbers are embedded as rationals.
-/

/-- A 3-component vector of JS numbers (embedded as rationals). -/
structure Vec3 where
  x : ℚ
  y : ℚ
  z : ℚ
deriving DecidableEq, Repr

/-- A quaternion, as used by `xeogl.Quaternion` (`xyzw`). -/
structure Quat where
  x : ℚ
  y : ℚ
  z : ℚ
  w : ℚ
deriving DecidableEq, Repr

/-- An axis-aligned bounding box `[xmin, ymin, zmin, xmax, ymax, zmax]`. -/
structure AABB where
  xmin : ℚ
  ymin : ℚ
  zmin : ℚ
  xmax : ℚ
  ymax : ℚ
  zmax : ℚ
deriving DecidableEq, Repr

/-- Lookup in a string-keyed association list (first match wins; JS object
keys are unique, so first match is the match). -/
def lookupA {α : Type} : List (String × α) → String → Option α
  | [], _ => none
  | p :: rest, k => if p.1 = k then some p.2 else lookupA rest k

/-- JS `delete m[k]`: remove the key `k` (keys are unique in a JS object,
so filtering all occurrences is the same operation). -/
def removeA {α : Type} (l : List (String × α)) (k : String) : List (String × α) :=
  l.filter (fun p => decide (p.1 ≠ k))

/-- JS `m[k] = v`: an existing key keeps its position in enumeration
order and gets the new value; a new key is appended at the end. -/
def updateA {α : Type} (l : List (String × α)) (k : String) (v : α) : List (String × α) :=
  match lookupA l k with
  | some _ => l.map (fun p => if p.1 = k then (k, v) else p)
  | none => l ++ [(k, v)]

theorem lookupA_eq_none {α : Type} {l : List (String × α)} {k : String} :
    lookupA l k = none ↔ ∀ p ∈ l, p.1 ≠ k := by
  induction l with
  | nil => simp [lookupA]
  | cons p rest ih =>
    by_cases h : p.1 = k <;> simp [lookupA, h, ih]

theorem lookupA_mem {α : Type} {l : List (String × α)} {k : String} {v : α} :
    lookupA l k = some v → (k, v) ∈ l := by
  induction l with
  | nil => intro h; simp [lookupA] at h
  | cons p rest ih =>
    intro h
    rw [lookupA] at h
    by_cases hp : p.1 = k
    · rw [if_pos hp] at h
      have hv : p.2 = v := by injection h
      have hpv : p = (k, v) := by
        obtain ⟨a, b⟩ := p
        simp only at hp hv
        simp [hp, hv]
      rw [← hpv]
      exact List.mem_cons_self _ _
    · rw [if_neg hp] at h
      exact List.mem_cons_of_mem _ (ih h)

theorem lookupA_append_none {α : Type} {l₁ : List (String × α)} (l₂ : List (String × α))
    {k : String} (h : lookupA l₁ k = none) : lookupA (l₁ ++ l₂) k = lookupA l₂ k := by
  induction l₁ with
  | nil => simp
  | cons p rest ih =>
    rw [lookupA] at h
    by_cases hp : p.1 = k
    · rw [if_pos hp] at h; exact absurd h (by simp)
    · rw [if_neg hp] at h
      rw [List.cons_append, lookupA, if_neg hp]
      exact ih h

theorem lookupA_append_some {α : Type} {l₁ l₂ : List (String × α)}
    {k : String} {v : α} (h : lookupA l₁ k = some v) : lookupA (l₁ ++ l₂) k = some v := by
  induction l₁ with
  | nil => simp [lookupA] at h
  | cons p rest ih =>
    rw [lookupA] at h
    by_cases hp : p.1 = k
    · rw [if_pos hp] at h
      rw [List.cons_append, lookupA, if_pos hp]
      exact h
    · rw [if_neg hp] at h
      rw [List.cons_append, lookupA, if_neg hp]
      exact ih h

theorem removeA_cons {α : Type} (p : String × α) (rest : List (String × α)) (k : String) :
    removeA (p :: rest) k = if p.1 = k then removeA rest k else p :: removeA rest k := by
  by_cases h : p.1 = k <;> simp [removeA, List.filter_cons, h]

theorem lookupA_removeA_self {α : Type} (l : List (String × α)) (k : String) :
    lookupA (removeA l k) k = none := by
  induction l with
  | nil => simp [removeA, lookupA]
  | cons p rest ih =>
    rw [removeA_cons]
    by_cases h : p.1 = k
    · rw [if_pos h]; exact ih
    · rw [if_neg h, lookupA, if_neg h]; exact ih

theorem lookupA_removeA_ne {α : Type} (l : List (String × α)) {k k' : String}
    (h : k' ≠ k) : lookupA (removeA l k) k' = lookupA l k' := by
  induction l with
  | nil => simp [removeA, lookupA]
  | cons p rest ih =>
    rw [removeA_cons]
    by_cases hp : p.1 = k
    · rw [if_pos hp]
      have hpk : p.1 ≠ k' := by rw [hp]; exact fun hh => h hh.symm
      conv_rhs => rw [lookupA]
      rw [if_neg hpk]
      exact ih
    · rw [if_neg hp]
      rw [lookupA, lookupA]
      by_cases hk : p.1 = k'
      · rw [if_pos hk, if_pos hk]
      · rw [if_neg hk, if_neg hk]; exact ih

theorem lookupA_map_replace_self {α : Type} (l : List (String × α)) (k : String) (v : α)
    (h : (lookupA l k).isSome) :
    lookupA (l.map (fun p => if p.1 = k then (k, v) else p)) k = some v := by
  induction l with
  | nil => simp [lookupA] at h
  | cons p rest ih =>
    rw [lookupA] at h
    by_cases hp : p.1 = k
    · simp [List.map_cons, hp, lookupA]
    · rw [if_neg hp] at h
      simp only [List.map_cons, if_neg hp, lookupA, if_neg hp]
      exact ih h

theorem lookupA_map_replace_ne {α : Type} (l : List (String × α)) {k k' : String} (v : α)
    (h : k' ≠ k) :
    lookupA (l.map (fun p => if p.1 = k then (k, v) else p)) k' = lookupA l k' := by
  induction l with
  | nil => simp [lookupA]
  | cons p rest ih =>
    by_cases hp : p.1 = k
    · have hk : k ≠ k' := fun hh => h hh.symm
      simp only [List.map_cons, if_pos hp, lookupA, if_neg hk]
      have hpk : p.1 ≠ k' := by rw [hp]; exact hk
      rw [if_neg hpk]
      exact ih
    · simp only [List.map_cons, if_neg hp, lookupA]
      by_cases hk : p.1 = k'
      · rw [if_pos hk, if_pos hk]
      · rw [if_neg hk, if_neg hk]; exact ih

theorem lookupA_updateA_self {α : Type} (l : List (String × α)) (k : String) (v : α) :
    lookupA (updateA l k v) k = some v := by
  unfold updateA
  cases he : lookupA l k with
  | some w =>
    exact lookupA_map_replace_self l k v (by rw [he]; rfl)
  | none =>
    rw [lookupA_append_none _ he]
    simp [lookupA]

theorem lookupA_updateA_ne {α : Type} (l : List (String × α)) {k k' : String} (v : α)
    (h : k' ≠ k) : lookupA (updateA l k v) k' = lookupA l k' := by
  unfold updateA
  cases he : lookupA l k with
  | some w => exact lookupA_map_replace_ne l v h
  | none =>
    cases he' : lookupA l k' with
    | some u => rw [lookupA_append_some he']
    | none =>
      rw [lookupA_append_none _ he']
      rw [lookupA, if_neg (fun hh : k = k' => h hh.symm), lookupA]

theorem updateA_updateA {α : Type} (l : List (String × α)) (k : String) (v : α) :
    updateA (updateA l k v) k v = updateA l k v := by
  have hsome : lookupA (updateA l k v) k = some v := lookupA_updateA_self l k v
  have hL : updateA (updateA l k v) k v
      = (updateA l k v).map (fun p => if p.1 = k then (k, v) else p) := by
    rw [updateA, hsome]
  rw [hL]
  cases he : lookupA l k with
  | some w =>
    have h1 : updateA l k v = l.map (fun p => if p.1 = k then (k, v) else p) := by
      rw [updateA, he]
    rw [h1, List.map_map]
    apply List.map_congr_left
    intro p _
    by_cases hp : p.1 = k <;> simp [Function.comp, hp]
  | none =>
    have h1 : updateA l k v = l ++ [(k, v)] := by rw [updateA, he]
    rw [h1, List.map_append]
    have hnone := lookupA_eq_none.mp he
    have hl : l.map (fun p => if p.1 = k then (k, v) else p) = l := by
      conv_rhs => rw [← List.map_id l]
      apply List.map_congr_left
      intro p hp
      simp [hnone p hp]
    rw [hl]
    simp

/-- One light source as created by `createLight` (variant recorded in
`ltype`; unused attribute slots stay `none`). -/
structure LightRec where
  ltype : String
  color : Option Vec3
  intensity : Option ℚ
  dir : Option Vec3
  pos : Option Vec3
  space : Option String
deriving DecidableEq, Repr

/-- A loaded model: the keys of `model.types["xeogl.Entity"]` (its
objects, in registration order) plus its world bounding box as consumed
by `getAABB`. -/
structure ModelRec where
  entities : List String
  maabb : Option AABB
deriving DecidableEq, Repr

/-- An entry of `scene.components` as consumed by `getAABB`: either a
world boundary (entities, models, clips) or a point position (point
lights), or neither. -/
structure CompRec where
  worldBoundary : Option AABB
  pos : Option Vec3
deriving DecidableEq, Repr

/-- The mutable viewer state: the flat string-keyed maps declared at the
top of the `xeometry.Viewer` constructor (viewer.js lines 72-92), each
embedded as an insertion-ordered association list. -/
structure VState where
  objects : List String
  objectTypes : List (String × String)
  objectVisible : List (String × Bool)
  types : List (String × List String)
  models : List (String × ModelRec)
  modelSrcs : List (String × String)
  objectModels : List (String × String)
  annotations : List (String × Option String)
  objectAnnotations : List (String × List String)
  lights : List (String × LightRec)
  lightHelpers : List (String × Bool)
  clips : List String
  clipHelpers : List (String × Bool)
  eulerAngles : List (String × Vec3)
  translations : List (String × Vec3)
  rotations : List (String × Quat)
  scales : List (String × Vec3)
  transformable : List String
  pivotOffsets : List (String × Vec3)
  components : List (String × CompRec)
  sceneAabb : AABB
deriving DecidableEq, Repr

/-- The type tag of an object: `meta && meta.type ? meta.type : "DEFAULT"`
(an empty string is falsy in JS, hence also falls back to `"DEFAULT"`). -/
def typeOf (st : VState) (id : String) : String :=
  match lookupA st.objectTypes id with
  | some t => if t = "" then "DEFAULT" else t
  | none => "DEFAULT"

/-- The bucket of object IDs registered under a type tag (empty when the
tag has no bucket). -/
def bucketOf (st : VState) (t : String) : List String :=
  (lookupA st.types t).getD []

/-- An object's `visible` flag (`true` by default). -/
def visibleOf (st : VState) (id : String) : Bool :=
  (lookupA st.objectVisible id).getD true

/-- A resolution target: `undefined`, a single ID string, or a list of ID
strings, as accepted by `getObjects`, `show`/`hide` and friends. -/
inductive GTarget where
  | undef : GTarget
  | str : String → GTarget
  | arr : List String → GTarget
deriving DecidableEq, Repr

/-- The single-string branch of `getObjects` (viewer.js lines 371-389):
exact object ID, then exact type tag, then exact model ID; `none` models
the `error("Model not found")` branch, whose caller-visible value is `[]`. -/
def getObjectsOne (st : VState) (id : String) : Option (List String) :=
  if id ∈ st.objects then some [id]
  else match lookupA st.types id with
    | some bucket => some bucket
    | none =>
      match lookupA st.models id with
      | some mr => some mr.entities
      | none => none

/-- One step of the de-duplicating accumulator of `getObjects` for list
input (the `got`/`result` loop, lines 392-404): the `got` map holds
exactly the members of `result`, so the membership test is on `result`. -/
def pushUnique (result : List String) (id2 : String) : List String :=
  if id2 ∈ result then result else result ++ [id2]

/-- The array branch of `getObjects` (viewer.js lines 391-405). -/
def getObjectsList (st : VState) (ids : List String) : List String :=
  ids.foldl (fun result i => (((getObjectsOne st i).getD [])).foldl pushUnique result) []

/-- Public `getObjects` (viewer.js lines 367-407). -/
def getObjects (st : VState) : GTarget → List String
  | .undef => st.objects
  | .str id => (getObjectsOne st id).getD []
  | .arr ids => getObjectsList st ids

/-- De-duplication keeping the first occurrence of each element. -/
def dedupFirst : List String → List String
  | [] => []
  | x :: xs => x :: dedupFirst (xs.filter (fun y => decide (y ≠ x)))
termination_by l => l.length
decreasing_by
  simp only [List.length_cons]
  exact Nat.lt_succ_of_le (List.length_filter_le _ xs)


theorem dedupFirst_nil : dedupFirst [] = [] := by
  rw [dedupFirst]

theorem dedupFirst_cons (x : String) (xs : List String) :
    dedupFirst (x :: xs) = x :: dedupFirst (xs.filter (fun y => decide (y ≠ x))) := by
  rw [dedupFirst]

theorem foldl_pushUnique (xs res : List String) :
    xs.foldl pushUnique res = res ++ dedupFirst (xs.filter (fun y => decide (y ∉ res))) := by
  induction xs generalizing res with
  | nil => simp [dedupFirst_nil]
  | cons x xs ih =>
    rw [List.foldl_cons, ih]
    by_cases hx : x ∈ res
    · have hpu : pushUnique res x = res := by simp [pushUnique, hx]
      rw [hpu, List.filter_cons]
      simp [hx]
    · have hpu : pushUnique res x = res ++ [x] := by simp [pushUnique, hx]
      have hcond : (decide (x ∉ res)) = true := by simp [hx]
      rw [hpu, List.filter_cons, hcond, if_pos rfl, dedupFirst_cons]
      have hff : xs.filter (fun y => decide (y ∉ res ++ [x]))
          = (xs.filter (fun y => decide (y ∉ res))).filter (fun y => decide (y ≠ x)) := by
        rw [List.filter_filter]
        apply List.filter_congr
        intro y _
        rw [← Bool.decide_and, decide_eq_decide]
        simp [List.mem_append, not_or, and_comm]
      rw [hff, List.append_assoc, List.singleton_append]

theorem getObjectsList_eq_dedupFirst (st : VState) (ids : List String) :
    getObjectsList st ids
      = dedupFirst ((ids.map (fun i => (getObjectsOne st i).getD [])).flatten) := by
  have hstep : ∀ (l : List String) (res : List String), List.foldl
        (fun result i => (((getObjectsOne st i).getD [])).foldl pushUnique result) res l
      = ((l.map (fun i => (getObjectsOne st i).getD [])).flatten).foldl pushUnique res := by
    intro l
    induction l with
    | nil => intro res; simp
    | cons i l ih =>
      intro res
      rw [List.foldl_cons, List.map_cons, List.flatten_cons, List.foldl_append, ih]
  rw [getObjectsList, hstep, foldl_pushUnique]
  have hT : (fun y : String => decide (y ∉ ([] : List String))) = fun _ => true := by
    funext y; simp
  rw [List.nil_append, hT, List.filter_true]

/-- Ownership well-formedness maintained by `loadModel` (viewer.js lines
250-266): a model's entity list is duplicate-free, every entity is a
registered object whose `objectModels` entry points back at the model,
and conversely every object mapped to the model is among its entities. -/
def wfOwnership (st : VState) : Prop :=
  (∀ p ∈ st.models, p.2.entities.Nodup ∧
    ∀ o ∈ p.2.entities, o ∈ st.objects ∧ lookupA st.objectModels o = some p.1) ∧
  (∀ q ∈ st.objectModels, ∀ p ∈ st.models, q.2 = p.1 → q.1 ∈ p.2.entities)

instance wfOwnershipDecidable (st : VState) : Decidable (wfOwnership st) := by
  unfold wfOwnership
  infer_instance

/-- Concatenation of the per-entry expansions of a list target, before
de-duplication. -/
def concatExpansions (st : VState) (ids : List String) : List String :=
  (ids.map (fun i => (getObjectsOne st i).getD [])).flatten

/-- Claim C2: for a loaded model ID `m` (that is not shadowed by an
object or a type tag), `getObjects m` returns exactly the objects the
model owns, each once, in registration order; and for a list input the
result is the concatenation of the entries' expansions de-duplicated by
first occurrence. -/
theorem claim2_model_resolution_and_list_dedup (st : VState) (m : String) (mr : ModelRec)
    (hwf : wfOwnership st)
    (hm : lookupA st.models m = some mr)
    (hmo : m ∉ st.objects)
    (hmt : lookupA st.types m = none) :
    (getObjects st (.str m) = mr.entities ∧ mr.entities.Nodup ∧
      (∀ o, o ∈ getObjects st (.str m) ↔ lookupA st.objectModels o = some m)) ∧
    (∀ ids, getObjects st (.arr ids) = dedupFirst (concatExpansions st ids)) := by
  have hone : getObjectsOne st m = some mr.entities := by
    rw [getObjectsOne, if_neg hmo, hmt, hm]
  have hmem : (m, mr) ∈ st.models := lookupA_mem hm
  have hres : getObjects st (.str m) = mr.entities := by
    rw [getObjects, hone, Option.getD_some]
  refine ⟨⟨hres, (hwf.1 _ hmem).1, ?_⟩, ?_⟩
  · intro o
    rw [hres]
    constructor
    · intro ho
      exact ((hwf.1 _ hmem).2 o ho).2
    · intro ho
      exact hwf.2 _ (lookupA_mem ho) _ hmem rfl
  · intro ids
    rw [getObjects, getObjectsList_eq_dedupFirst, concatExpansions]

/-- Witness state for claim C2: one model `"m"` owning objects `"a"`
and `"b"`. -/
def c2State : VState where
  objects := ["a", "b"]
  objectTypes := []
  objectVisible := []
  types := []
  models := [("m", ⟨["a", "b"], none⟩)]
  modelSrcs := [("m", "m.gltf")]
  objectModels := [("a", "m"), ("b", "m")]
  annotations := []
  objectAnnotations := []
  lights := []
  lightHelpers := []
  clips := []
  clipHelpers := []
  eulerAngles := []
  translations := []
  rotations := []
  scales := []
  transformable := []
  pivotOffsets := []
  components := []
  sceneAabb := ⟨0, 0, 0, 0, 0, 0⟩

theorem claim2_witness :
    getObjects c2State (.str "m") = ["a", "b"] ∧
    getObjects c2State (.arr ["m", "a", "m"]) = dedupFirst (concatExpansions c2State ["m", "a", "m"]) := by
  have h := claim2_model_resolution_and_list_dedup c2State "m" ⟨["a", "b"], none⟩
    (by decide) (by decide) (by decide) (by decide)
  exact ⟨h.1.1, h.2 ["m", "a", "m"]⟩

/-- Normalization `type = type || "DEFAULT"` of `setType`'s second
argument (viewer.js line 440): a missing or empty (falsy) type becomes
`"DEFAULT"`. -/
def normType (t : Option String) : String :=
  match t with
  | none => "DEFAULT"
  | some s => if s = "" then "DEFAULT" else s

/-- The single-string branch of `setType` (viewer.js lines 438-469):
no-op when the type is unchanged, otherwise the object is deleted from
its current bucket and assigned into the new one (created on demand),
and `meta.type` is updated.  The model branch is an explicit TODO in the
source and does nothing; an unknown ID only logs an error. -/
def setTypeStr (st : VState) (id : String) (t : Option String) : VState :=
  let ty := normType t
  if id ∈ st.objects then
    let current := typeOf st id
    if current = ty then st
    else
      let types1 := match lookupA st.types current with
        | some bucket => updateA st.types current (bucket.filter (fun x => decide (x ≠ id)))
        | none => st.types
      let types2 := match lookupA types1 ty with
        | some bucket => updateA types1 ty (if id ∈ bucket then bucket else bucket ++ [id])
        | none => types1 ++ [(ty, [id])]
      { st with types := types2, objectTypes := updateA st.objectTypes id ty }
  else if (lookupA st.models id).isSome then st
  else st

/-- Public `getType` (viewer.js lines 479-486): the object's tag with the
`"DEFAULT"` fallback, or `none` (the logged-error branch) for a
non-object ID. -/
def getType (st : VState) (id : String) : Option String :=
  if id ∈ st.objects then some (typeOf st id) else none

theorem setType_establishes (st : VState) (o T : String)
    (ho : o ∈ st.objects) (hT : T ≠ "")
    (hbc : o ∈ bucketOf st (typeOf st o)) :
    (setTypeStr st o (some T)).objects = st.objects ∧
    typeOf (setTypeStr st o (some T)) o = T ∧
    ∃ b, lookupA (setTypeStr st o (some T)).types T = some b ∧ o ∈ b := by
  have hnorm : normType (some T) = T := by simp [normType, hT]
  by_cases hc : typeOf st o = T
  · have hst : setTypeStr st o (some T) = st := by
      simp [setTypeStr, hnorm, hc, ho]
    rw [hst]
    refine ⟨rfl, hc, ?_⟩
    rw [hc] at hbc
    cases he : lookupA st.types T with
    | none => rw [bucketOf, he] at hbc; simp at hbc
    | some b =>
      rw [bucketOf, he, Option.getD_some] at hbc
      exact ⟨b, rfl, hbc⟩
  · have hst : setTypeStr st o (some T) =
        { st with
          types :=
            match lookupA (match lookupA st.types (typeOf st o) with
                | some bucket => updateA st.types (typeOf st o)
                    (bucket.filter (fun x => decide (x ≠ o)))
                | none => st.types) T with
            | some bucket =>
              updateA (match lookupA st.types (typeOf st o) with
                | some bucket => updateA st.types (typeOf st o)
                    (bucket.filter (fun x => decide (x ≠ o)))
                | none => st.types) T (if o ∈ bucket then bucket else bucket ++ [o])
            | none =>
              (match lookupA st.types (typeOf st o) with
                | some bucket => updateA st.types (typeOf st o)
                    (bucket.filter (fun x => decide (x ≠ o)))
                | none => st.types) ++ [(T, [o])],
          objectTypes := updateA st.objectTypes o T } := by
      simp [setTypeStr, hnorm, hc, ho]
    rw [hst]
    refine ⟨rfl, ?_, ?_⟩
    · rw [typeOf]
      simp only [lookupA_updateA_self]
      rw [if_neg hT]
    · cases h2 : lookupA (match lookupA st.types (typeOf st o) with
        | some bucket => updateA st.types (typeOf st o) (bucket.filter (fun x => decide (x ≠ o)))
        | none => st.types) T with
      | some bucket =>
        simp only [h2]
        refine ⟨if o ∈ bucket then bucket else bucket ++ [o], lookupA_updateA_self _ _ _, ?_⟩
        by_cases hob : o ∈ bucket <;> simp [hob]
      | none =>
        simp only [h2]
        refine ⟨[o], ?_, by simp⟩
        rw [lookupA_append_none _ h2, lookupA, if_pos rfl]

theorem setType_removes (st : VState) (o T T2 : String) (b : List String)
    (ho : o ∈ st.objects) (hT2 : T2 ≠ "")
    (hcur : typeOf st o = T) (hne : T ≠ T2)
    (hb : lookupA st.types T = some b) :
    ∃ b2, lookupA (setTypeStr st o (some T2)).types T = some b2 ∧ o ∉ b2 := by
  have hnorm : normType (some T2) = T2 := by simp [normType, hT2]
  have hcn : ¬ typeOf st o = T2 := by rw [hcur]; exact hne
  have hself : lookupA (updateA st.types T (b.filter (fun x => decide (x ≠ o)))) T
      = some (b.filter (fun x => decide (x ≠ o))) := lookupA_updateA_self _ _ _
  cases h2 : lookupA (updateA st.types T (b.filter (fun x => decide (x ≠ o)))) T2 with
  | some bucket =>
    have hst : (setTypeStr st o (some T2)).types
        = updateA (updateA st.types T (b.filter (fun x => decide (x ≠ o)))) T2
            (if o ∈ bucket then bucket else bucket ++ [o]) := by
      have h2n := h2
      simp only [decide_not] at h2n
      simp [setTypeStr, hnorm, hcn, ho, hcur, hb, hne, h2n]
    rw [hst]
    refine ⟨b.filter (fun x => decide (x ≠ o)), ?_, by simp⟩
    rw [lookupA_updateA_ne _ _ hne, hself]
  | none =>
    have hst : (setTypeStr st o (some T2)).types
        = updateA st.types T (b.filter (fun x => decide (x ≠ o))) ++ [(T2, [o])] := by
      have h2n := h2
      simp only [decide_not] at h2n
      simp [setTypeStr, hnorm, hcn, ho, hcur, hb, hne, h2n]
    rw [hst]
    exact ⟨b.filter (fun x => decide (x ≠ o)), lookupA_append_some hself, by simp⟩

/-- Claim C6: `setType(o, T)` makes `T` resolve to a bucket containing
`o`; a subsequent `setType(o, T2)` (with `T2 ≠ T`) removes `o` from the
resolution of `T` and adds it to that of `T2`; `setType` is a no-op when
the new type equals the current type; and an unset type reads as
`"DEFAULT"`. -/
theorem claim6_setType_moves_buckets (st : VState) (o T T2 : String)
    (ho : o ∈ st.objects)
    (hT : T ≠ "") (hT2 : T2 ≠ "") (hTT2 : T ≠ T2)
    (hTobj : T ∉ st.objects) (hT2obj : T2 ∉ st.objects)
    (hbc : o ∈ bucketOf st (typeOf st o)) :
    (∃ b, getObjectsOne (setTypeStr st o (some T)) T = some b ∧ o ∈ b) ∧
    (∃ b2, getObjectsOne (setTypeStr (setTypeStr st o (some T)) o (some T2)) T = some b2
       ∧ o ∉ b2) ∧
    (∃ b3, getObjectsOne (setTypeStr (setTypeStr st o (some T)) o (some T2)) T2 = some b3
       ∧ o ∈ b3) ∧
    (typeOf st o = T → setTypeStr st o (some T) = st) ∧
    (lookupA st.objectTypes o = none → getType st o = some "DEFAULT") := by
  obtain ⟨hobj1, hty1, b, hb, hob⟩ := setType_establishes st o T ho hT hbc
  have ho1 : o ∈ (setTypeStr st o (some T)).objects := hobj1 ▸ ho
  have hbc1 : o ∈ bucketOf (setTypeStr st o (some T)) (typeOf (setTypeStr st o (some T)) o) := by
    rw [hty1, bucketOf, hb, Option.getD_some]
    exact hob
  obtain ⟨hobj2, hty2, b3, hb3, hob3⟩ := setType_establishes (setTypeStr st o (some T)) o T2 ho1 hT2 hbc1
  obtain ⟨b2, hb2, hnob2⟩ := setType_removes (setTypeStr st o (some T)) o T T2 b ho1 hT2 hty1 hTT2 hb
  have hobjs : (setTypeStr (setTypeStr st o (some T)) o (some T2)).objects = st.objects := by
    rw [hobj2, hobj1]
  refine ⟨⟨b, ?_, hob⟩, ⟨b2, ?_, hnob2⟩, ⟨b3, ?_, hob3⟩, ?_, ?_⟩
  · rw [getObjectsOne, hobj1, if_neg hTobj, hb]
  · rw [getObjectsOne, hobjs, if_neg hTobj, hb2]
  · rw [getObjectsOne, hobjs, if_neg hT2obj, hb3]
  · intro hc
    have hnorm : normType (some T) = T := by simp [normType, hT]
    simp [setTypeStr, hnorm, hc, ho]
  · intro hnone
    rw [getType, if_pos ho, typeOf, hnone]

/-- Witness state for claim C6: one object `"a"` of default type. -/
def c6State : VState where
  objects := ["a"]
  objectTypes := []
  objectVisible := []
  types := [("DEFAULT", ["a"])]
  models := [("m", ⟨["a"], none⟩)]
  modelSrcs := []
  objectModels := [("a", "m")]
  annotations := []
  objectAnnotations := []
  lights := []
  lightHelpers := []
  clips := []
  clipHelpers := []
  eulerAngles := []
  translations := []
  rotations := []
  scales := []
  transformable := []
  pivotOffsets := []
  components := []
  sceneAabb := ⟨0, 0, 0, 0, 0, 0⟩

theorem claim6_witness :
    (∃ b, getObjectsOne (setTypeStr c6State "a" (some "cover")) "cover" = some b ∧ "a" ∈ b) ∧
    (∃ b2, getObjectsOne (setTypeStr (setTypeStr c6State "a" (some "cover")) "a" (some "base")) "cover" = some b2
       ∧ "a" ∉ b2) := by
  have h := claim6_setType_moves_buckets c6State "a" "cover" "base"
    (by decide) (by decide) (by decide) (by decide) (by decide) (by decide) (by decide)
  exact ⟨h.1, h.2.1⟩

/-- Center of a bounding box. -/
def aabbCenter (b : AABB) : Vec3 :=
  ⟨(b.xmin + b.xmax) / 2, (b.ymin + b.ymax) / 2, (b.zmin + b.zmax) / 2⟩

/-- World-boundary center of a scene component (zero when the component
or its boundary is absent; only used when a boundary exists). -/
def centerOf (st : VState) (id : String) : Vec3 :=
  match lookupA st.components id with
  | some c =>
    match c.worldBoundary with
    | some bb => aabbCenter bb
    | none => ⟨0, 0, 0⟩
  | none => ⟨0, 0, 0⟩

/-- Componentwise difference of vectors. -/
def vsub (a b : Vec3) : Vec3 := ⟨a.x - b.x, a.y - b.y, a.z - b.z⟩

/-- The identity quaternion, default of `xeogl.Quaternion`. -/
def qId : Quat := ⟨0, 0, 0, 1⟩

/-- State effect of `buildModelTransform` (viewer.js lines 810-833): the
pivot offset `modelCenter - sceneCenter` is recorded, and the freshly
created `Scale`/`Quaternion`/`Translate` components register with their
xeogl defaults (`[1,1,1]`, identity, `[0,0,0]`); the entity is marked
transformable. -/
def buildModelTransformState (st : VState) (id : String) : VState :=
  let off := vsub (centerOf st id) (aabbCenter st.sceneAabb)
  { st with
    scales := updateA st.scales id ⟨1, 1, 1⟩,
    rotations := updateA st.rotations id qId,
    translations := updateA st.translations id ⟨0, 0, 0⟩,
    pivotOffsets := updateA st.pivotOffsets id off,
    transformable := if id ∈ st.transformable then st.transformable else st.transformable ++ [id] }

/-- State effect of `buildObjectTransform` (viewer.js lines 835-869):
identical registry effect to the model case (the baked leaf matrix lives
in the xeogl transform chain and is captured by the chain semantics
below, not in the registry maps). -/
def buildObjectTransformState (st : VState) (id : String) : VState :=
  let off := vsub (centerOf st id) (aabbCenter st.sceneAabb)
  { st with
    scales := updateA st.scales id ⟨1, 1, 1⟩,
    rotations := updateA st.rotations id qId,
    translations := updateA st.translations id ⟨0, 0, 0⟩,
    pivotOffsets := updateA st.pivotOffsets id off,
    transformable := if id ∈ st.transformable then st.transformable else st.transformable ++ [id] }

/-- State effect of `getTransformableComponent` (viewer.js lines
786-800): `none` when the ID is neither an object nor a model; otherwise
the state with the entity's transform stack materialized on demand
(models are dispatched to `buildModelTransform` first, line 794). -/
def getTransformableComponentState (st : VState) (id : String) : Option VState :=
  if id ∈ st.objects ∨ (lookupA st.models id).isSome then
    some (if id ∈ st.transformable then st
      else if (lookupA st.models id).isSome then buildModelTransformState st id
      else buildObjectTransformState st id)
  else none

/-- The single-string branch of `setScale` (viewer.js lines 572-590):
materialize the stack if the `Scale` component is missing, then assign
`scale.xyz = xyz`; an unresolvable ID logs an error and changes nothing. -/
def setScaleStr (st : VState) (id : String) (xyz : Vec3) : VState :=
  match lookupA st.scales id with
  | some _ => { st with scales := updateA st.scales id xyz }
  | none =>
    match getTransformableComponentState st id with
    | none => st
    | some st1 => { st1 with scales := updateA st1.scales id xyz }

/-- Claim C9: for an ID that resolves to a transformable component,
calling `setScale(id, xyz)` twice in succession (in particular with
`xyz = [1,1,1]`) leaves exactly the state produced by calling it once:
the second call finds the existing `Scale` component and overwrites it
with the same value. -/
theorem claim9_setScale_idempotent (st : VState) (id : String) (xyz : Vec3)
    (h : id ∈ st.objects ∨ (lookupA st.models id).isSome) :
    setScaleStr (setScaleStr st id xyz) id xyz = setScaleStr st id xyz := by
  have key : ∀ s1 : VState,
      setScaleStr { s1 with scales := updateA s1.scales id xyz } id xyz
        = { s1 with scales := updateA s1.scales id xyz } := by
    intro s1
    have hl : lookupA ({ s1 with scales := updateA s1.scales id xyz } : VState).scales id
        = some xyz := lookupA_updateA_self _ _ _
    rw [setScaleStr, hl]
    show { s1 with scales := updateA (updateA s1.scales id xyz) id xyz }
        = { s1 with scales := updateA s1.scales id xyz }
    rw [updateA_updateA]
  cases he : lookupA st.scales id with
  | some w =>
    have h1 : setScaleStr st id xyz = { st with scales := updateA st.scales id xyz } := by
      rw [setScaleStr, he]
    rw [h1, key st]
  | none =>
    have hg : getTransformableComponentState st id
        = some (if id ∈ st.transformable then st
            else if (lookupA st.models id).isSome then buildModelTransformState st id
            else buildObjectTransformState st id) := by
      rw [getTransformableComponentState, if_pos h]
    have h1 : setScaleStr st id xyz
        = { (if id ∈ st.transformable then st
            else if (lookupA st.models id).isSome then buildModelTransformState st id
            else buildObjectTransformState st id) with
            scales := updateA (if id ∈ st.transformable then st
            else if (lookupA st.models id).isSome then buildModelTransformState st id
            else buildObjectTransformState st id).scales id xyz } := by
      rw [setScaleStr, he, hg]
    rw [h1, key]

/-- Witness state for claim C9: one loaded model `"m"` with no transform
stack yet. -/
def c9State : VState where
  objects := []
  objectTypes := []
  objectVisible := []
  types := []
  models := [("m", ⟨[], none⟩)]
  modelSrcs := []
  objectModels := []
  annotations := []
  objectAnnotations := []
  lights := []
  lightHelpers := []
  clips := []
  clipHelpers := []
  eulerAngles := []
  translations := []
  rotations := []
  scales := []
  transformable := []
  pivotOffsets := []
  components := []
  sceneAabb := ⟨0, 0, 0, 0, 0, 0⟩

theorem claim9_witness :
    setScaleStr (setScaleStr c9State "m" ⟨1, 1, 1⟩) "m" ⟨1, 1, 1⟩
      = setScaleStr c9State "m" ⟨1, 1, 1⟩ :=
  claim9_setScale_idempotent c9State "m" ⟨1, 1, 1⟩ (by decide)

/-- Componentwise vector sum (the action of `xeogl.Translate`). -/
def vadd (a b : Vec3) : Vec3 := ⟨a.x + b.x, a.y + b.y, a.z + b.z⟩

/-- Componentwise negation (`math.mulVec3Scalar(offset, -1)`). -/
def vneg (a : Vec3) : Vec3 := ⟨-a.x, -a.y, -a.z⟩

/-- Componentwise product (the action of `xeogl.Scale`). -/
def vmul (a b : Vec3) : Vec3 := ⟨a.x * b.x, a.y * b.y, a.z * b.z⟩

/-- Cross product. -/
def vcross (a b : Vec3) : Vec3 :=
  ⟨a.y * b.z - a.z * b.y, a.z * b.x - a.x * b.z, a.x * b.y - a.y * b.x⟩

/-- Scalar multiple. -/
def smulV (k : ℚ) (a : Vec3) : Vec3 := ⟨k * a.x, k * a.y, k * a.z⟩

/-- Rotation of a vector by a quaternion (the action of
`xeogl.Quaternion`): `v + w·t + u × t` with `t = 2(u × v)`. -/
def quatApply (q : Quat) (v : Vec3) : Vec3 :=
  let u : Vec3 := ⟨q.x, q.y, q.z⟩
  let t := smulV 2 (vcross u v)
  vadd v (vadd (smulV q.w t) (vcross u t))

/-- Action on a point of the model transform stack built by
`buildModelTransform` (viewer.js lines 819-830), leaf first:
`Translate(-offset)`, then `Scale`, then `Quaternion`, then
`Translate(translation)`, then the root `Translate(offset)`. -/
def modelStackApply (off t s : Vec3) (q : Quat) (p : Vec3) : Vec3 :=
  vadd off (vadd t (quatApply q (vmul s (vadd (vneg off) p))))

/-- Action on a point of the effective object transform built by
`buildObjectTransform` (viewer.js lines 851-866): the object's own
pivot-centered stack applied first, then the owning model's stack
(`parent: model.transform`, line 860); the baked leaf matrix is the
identity for an object attached directly under the model transform. -/
def objectStackApply (offM tM sM : Vec3) (qM : Quat) (offO tO sO : Vec3) (qO : Quat)
    (p : Vec3) : Vec3 :=
  modelStackApply offM tM sM qM
    (vadd offO (vadd tO (quatApply qO (vmul sO (vadd (vneg offO) p)))))

/-- Claim C7: with rotations at their defaults, the effective transform
of an object is affine with linear part the componentwise product of the
object scale and the model scale, whatever the pivots and translations
are; in particular model scale `[2,2,2]` against object scale
`[0.5,0.5,0.5]` yields the identity scale contribution `[1,1,1]`. -/
theorem claim7_effective_scale_composes (offM tM offO tO sM sO : Vec3) :
    (∃ c, ∀ p, objectStackApply offM tM sM qId offO tO sO qId p
        = vadd (vmul sM (vmul sO p)) c) ∧
    vmul (⟨2, 2, 2⟩ : Vec3) (vmul (⟨1/2, 1/2, 1/2⟩ : Vec3) (⟨1, 1, 1⟩ : Vec3))
      = (⟨1, 1, 1⟩ : Vec3) := by
  constructor
  · refine ⟨vadd (vmul sM (vsub (vadd offO tO) (vadd (vmul sO offO) offM))) (vadd offM tM), ?_⟩
    intro p
    obtain ⟨px, py, pz⟩ := p
    obtain ⟨amx, amy, amz⟩ := offM
    obtain ⟨tmx, tmy, tmz⟩ := tM
    obtain ⟨aox, aoy, aoz⟩ := offO
    obtain ⟨tox, toy, toz⟩ := tO
    obtain ⟨smx, smy, smz⟩ := sM
    obtain ⟨sox, soy, soz⟩ := sO
    simp only [objectStackApply, modelStackApply, quatApply, vcross, smulV, vadd, vneg,
      vmul, vsub, qId]
    simp only [Vec3.mk.injEq]
    refine ⟨by ring, by ring, by ring⟩
  · simp only [vmul, Vec3.mk.injEq]
    norm_num

/-- The `getTranslate` helper of `getBookmark` (viewer.js lines
3396-3405): the translation is serialized only when
`xyz[0] !== 0 || xyz[1] !== 0 || xyz[1] !== 0` — the test reads index 1
twice and never index 2, exactly as in the source. -/
def bmTranslate (st : VState) (id : String) : Option Vec3 :=
  match lookupA st.translations id with
  | none => none
  | some xyz => if xyz.x ≠ 0 ∨ xyz.y ≠ 0 ∨ xyz.y ≠ 0 then some xyz else none

/-- The `getScale` helper of `getBookmark` (viewer.js lines 3407-3416):
serialized only when `xyz[0] !== 1 || xyz[1] !== 1 || xyz[1] !== 1` —
again index 1 twice, never index 2. -/
def bmScale (st : VState) (id : String) : Option Vec3 :=
  match lookupA st.scales id with
  | none => none
  | some xyz => if xyz.x ≠ 1 ∨ xyz.y ≠ 1 ∨ xyz.y ≠ 1 then some xyz else none

/-- The `getRotate` helper of `getBookmark` (viewer.js lines 3418-3423),
which does test all three indices. -/
def bmRotate (st : VState) (id : String) : Option Vec3 :=
  match lookupA st.eulerAngles id with
  | none => none
  | some xyz => if xyz.x ≠ 0 ∨ xyz.y ≠ 0 ∨ xyz.z ≠ 0 then some xyz else none

/-- The translation an entity ends up with after `setBookmark` restores
a bookmark: `setTranslate` runs only when the serialized field is
present (viewer.js lines 3737-3739), otherwise the freshly loaded entity
keeps the default `[0,0,0]`. -/
def restoredTranslate (t : Option Vec3) : Vec3 := t.getD ⟨0, 0, 0⟩

/-- The scale after restore: `setScale` only when present (lines
3740-3742), default `[1,1,1]` otherwise. -/
def restoredScale (sc : Option Vec3) : Vec3 := sc.getD ⟨1, 1, 1⟩

/-- State exhibiting the claim C3 failure: model `"m"` translated along
Z only and scaled along Z only. -/
def c3State : VState where
  objects := []
  objectTypes := []
  objectVisible := []
  types := []
  models := [("m", ⟨[], none⟩)]
  modelSrcs := [("m", "m.gltf")]
  objectModels := []
  annotations := []
  objectAnnotations := []
  lights := []
  lightHelpers := []
  clips := []
  clipHelpers := []
  eulerAngles := [("m", ⟨0, 0, 30⟩)]
  translations := [("m", ⟨0, 0, 5⟩)]
  rotations := []
  scales := [("m", ⟨1, 1, 2⟩)]
  transformable := ["m"]
  pivotOffsets := []
  components := []
  sceneAabb := ⟨0, 0, 0, 0, 0, 0⟩

/-- Claim C3 (code bug): the live translation `[0,0,5]` and scale
`[1,1,2]` of model `"m"` are omitted from the bookmark, so the round
trip restores the defaults `[0,0,0]` and `[1,1,1]` instead — the
Z-only components do not survive, although `getRotate`'s serializer
(which tests index 2) keeps the Z-only rotation. -/
theorem claim3_bookmark_drops_z_only_transforms :
    lookupA c3State.translations "m" = some ⟨0, 0, 5⟩ ∧
    bmTranslate c3State "m" = none ∧
    restoredTranslate (bmTranslate c3State "m") = ⟨0, 0, 0⟩ ∧
    restoredTranslate (bmTranslate c3State "m") ≠ ⟨0, 0, 5⟩ ∧
    lookupA c3State.scales "m" = some ⟨1, 1, 2⟩ ∧
    bmScale c3State "m" = none ∧
    restoredScale (bmScale c3State "m") = ⟨1, 1, 1⟩ ∧
    restoredScale (bmScale c3State "m") ≠ ⟨1, 1, 2⟩ ∧
    bmRotate c3State "m" = some ⟨0, 0, 30⟩ := by
  decide

/-- Fuel-indexed embedding of the internal `setVisible` (viewer.js lines
931-979), the engine behind `show`/`hide`.  Dispatch order for a string:
object, then light (helper visibility), then clip helper, then model
(re-resolved through `getObjects`), then type bucket, then logged error.
`undefined` fans out to all objects, lights and clips; a list folds the
string case over its entries.  Fuel only bounds the recursion through
model/type expansion (actual depth is at most three on registry-closed
states); at fuel 0 the state is returned unchanged. -/
def setVisibleF : Nat → VState → GTarget → Bool → VState
  | 0, st, _, _ => st
  | fuel + 1, st, .undef, v =>
    let st1 := setVisibleF fuel st (.arr st.objects) v
    let st2 := setVisibleF fuel st1 (.arr (st1.lights.map (fun p => p.1))) v
    setVisibleF fuel st2 (.arr st2.clips) v
  | fuel + 1, st, .str id, v =>
    if id ∈ st.objects then { st with objectVisible := updateA st.objectVisible id v }
    else if (lookupA st.lights id).isSome then
      match lookupA st.lightHelpers id with
      | some _ => { st with lightHelpers := updateA st.lightHelpers id v }
      | none => st
    else
      match lookupA st.clipHelpers id with
      | some _ => { st with clipHelpers := updateA st.clipHelpers id v }
      | none =>
        match lookupA st.models id with
        | some _ => setVisibleF fuel st (.arr (getObjects st (.str id))) v
        | none =>
          match lookupA st.types id with
          | some bucket => if bucket = [] then st else setVisibleF fuel st (.arr bucket) v
          | none => st
  | fuel + 1, st, .arr ids, v => ids.foldl (fun s i => setVisibleF fuel s (.str i) v) st

theorem setVisibleF_arr_nil (fuel : Nat) (st : VState) (v : Bool) :
    setVisibleF fuel st (.arr []) v = st := by
  cases fuel <;> rfl

/-- A primitive write performed by one of the property setters: the
property write on an object's component, the color write on a light
(`setColor` only), or the logged `Model, object or type not found`
error.  Opacity, color, clippability, pickability and outline live on
scene components outside the registries the dispatch reads, so the
ordered trace of written entities is the operation's entire observable
effect on resolution. -/
inductive SWrite where
  | obj : String → SWrite
  | light : String → SWrite
  | err : String → SWrite
deriving DecidableEq, Repr

/-- Fuel-indexed embedding of the shared dispatcher of `setOpacity`
(viewer.js lines 996-1032), `setColor` (1047-1114), the internal
`setClippable` (1202-1233), `setPickable` (1295-1326) and `setOutline`
(1367-1400), which are textually identical up to the written property
and, in `setColor` only, a light branch between the object and model
checks (`lightBranch` selects it).  Dispatch for a string: exact object,
then (colors only) light, then model (re-resolved through `getObjects`),
then type bucket with its empty-bucket early return, then logged error.
`undefined` fans out to all objects only; a list folds the string case
over its entries.  These setters never write the registries the
dispatch reads, so the state threads through unchanged and the result
is the ordered list of performed writes; at fuel 0 no writes are
recorded. -/
def propWritesF (lightBranch : Bool) : Nat → VState → GTarget → List SWrite
  | 0, _, _ => []
  | fuel + 1, st, .undef => propWritesF lightBranch fuel st (.arr st.objects)
  | fuel + 1, st, .str id =>
    if id ∈ st.objects then [.obj id]
    else if lightBranch && (lookupA st.lights id).isSome then [.light id]
    else match lookupA st.models id with
      | some _ => propWritesF lightBranch fuel st (.arr (getObjects st (.str id)))
      | none =>
        match lookupA st.types id with
        | some bucket =>
          if bucket = [] then [] else propWritesF lightBranch fuel st (.arr bucket)
        | none => [.err id]
  | fuel + 1, st, .arr ids =>
    ids.foldl (fun acc i => acc ++ propWritesF lightBranch fuel st (.str i)) []

/-- `setOpacity` (viewer.js lines 996-1032): no light branch. -/
def setOpacityF : Nat → VState → GTarget → List SWrite := propWritesF false

/-- `setColor` (viewer.js lines 1047-1114): a light branch between the
object and model checks. -/
def setColorF : Nat → VState → GTarget → List SWrite := propWritesF true

/-- Internal `setClippable` behind `setClippable`/`setUnclippable`
(viewer.js lines 1202-1233): no light branch. -/
def setClippableF : Nat → VState → GTarget → List SWrite := propWritesF false

/-- Internal `setPickable` behind `setPickable`/`setUnpickable`
(viewer.js lines 1295-1326): no light branch. -/
def setPickableF : Nat → VState → GTarget → List SWrite := propWritesF false

/-- Internal `setOutline` behind `showOutline`/`hideOutline`
(viewer.js lines 1367-1400): no light branch. -/
def setOutlineF : Nat → VState → GTarget → List SWrite := propWritesF false

theorem propWritesF_arr_nil (lb : Bool) (fuel : Nat) (st : VState) :
    propWritesF lb fuel st (.arr []) = [] := by
  cases fuel <;> rfl

theorem propWritesF_type_dispatch (lb : Bool) (st : VState) (id : String) (fuel : Nat)
    (b : List String) (ho : id ∉ st.objects)
    (hl : lb = true → lookupA st.lights id = none)
    (ht : lookupA st.types id = some b) :
    propWritesF lb (fuel + 1) st (.str id) = propWritesF lb fuel st (.arr b) := by
  rw [propWritesF, if_neg ho]
  have hcond : (lb && (lookupA st.lights id).isSome) = false := by
    cases lb with
    | false => rfl
    | true => rw [hl rfl]; rfl
  rw [hcond, if_neg (by decide)]
  cases hm : lookupA st.models id with
  | some mr =>
    simp only
    have : getObjects st (.str id) = b := by
      rw [getObjects, getObjectsOne, if_neg ho, ht, Option.getD_some]
    rw [this]
  | none =>
    simp only [ht]
    by_cases hb : b = []
    · subst hb
      rw [if_pos rfl, propWritesF_arr_nil]
    · rw [if_neg hb]

theorem propWritesF_light_branch (st : VState) (id : String) (fuel : Nat)
    (hl : (lookupA st.lights id).isSome) (ho : id ∉ st.objects) :
    propWritesF true (fuel + 1) st (.str id) = [.light id] := by
  rw [propWritesF, if_neg ho]
  have hcond : (true && (lookupA st.lights id).isSome) = true := by
    rw [Bool.true_and]
    exact hl
  rw [hcond, if_pos rfl]

/-- Claim C1 (amended): (a) in `getObjects` a type tag beats a model ID;
(b) in `setVisible` a type tag also effectively beats a model ID,
because the model branch re-resolves through `getObjects`, and the
operation proceeds on the type bucket; (d) the same type-over-model
dispatch holds in `setOpacity`, `setClippable`, `setPickable` and
`setOutline` (whether or not the ID also names a model, the writes are
those of the type bucket) and (e) in `setColor` when the ID names no
light; but (c) a light beats both in `setVisible` (the light branch
runs before the model/type logic and touches no object's visibility)
and (f) likewise in `setColor`, whose light branch writes the light's
color and nothing else. -/
theorem claim1_amended_precedence (st : VState) (id : String) (fuel : Nat) (v : Bool)
    (b : List String) :
    (id ∉ st.objects → lookupA st.types id = some b →
      getObjects st (.str id) = b) ∧
    (id ∉ st.objects → lookupA st.lights id = none → lookupA st.clipHelpers id = none →
      lookupA st.types id = some b →
      setVisibleF (fuel + 1) st (.str id) v = setVisibleF fuel st (.arr b) v) ∧
    ((lookupA st.lights id).isSome → id ∉ st.objects →
      (setVisibleF fuel st (.str id) v).objectVisible = st.objectVisible) ∧
    (id ∉ st.objects → lookupA st.types id = some b →
      setOpacityF (fuel + 1) st (.str id) = setOpacityF fuel st (.arr b) ∧
      setClippableF (fuel + 1) st (.str id) = setClippableF fuel st (.arr b) ∧
      setPickableF (fuel + 1) st (.str id) = setPickableF fuel st (.arr b) ∧
      setOutlineF (fuel + 1) st (.str id) = setOutlineF fuel st (.arr b)) ∧
    (id ∉ st.objects → lookupA st.lights id = none → lookupA st.types id = some b →
      setColorF (fuel + 1) st (.str id) = setColorF fuel st (.arr b)) ∧
    ((lookupA st.lights id).isSome → id ∉ st.objects →
      setColorF (fuel + 1) st (.str id) = [.light id]) := by
  refine ⟨?_, ?_, ?_, ?_, ?_, ?_⟩
  · intro ho ht
    rw [getObjects, getObjectsOne, if_neg ho, ht, Option.getD_some]
  · intro ho hl hc ht
    rw [setVisibleF, if_neg ho]
    have hls : ¬ (lookupA st.lights id).isSome := by rw [hl]; simp
    rw [if_neg hls, hc]
    cases hm : lookupA st.models id with
    | some mr =>
      simp only
      have : getObjects st (.str id) = b := by
        rw [getObjects, getObjectsOne, if_neg ho, ht, Option.getD_some]
      rw [this]
    | none =>
      simp only [ht]
      by_cases hb : b = []
      · subst hb
        rw [if_pos rfl, setVisibleF_arr_nil]
      · rw [if_neg hb]
  · intro hl ho
    cases fuel with
    | zero => rfl
    | succ n =>
      rw [setVisibleF, if_neg ho, if_pos hl]
      cases lookupA st.lightHelpers id <;> rfl
  · intro ho ht
    exact ⟨propWritesF_type_dispatch false st id fuel b ho (fun h => Bool.noConfusion h) ht,
      propWritesF_type_dispatch false st id fuel b ho (fun h => Bool.noConfusion h) ht,
      propWritesF_type_dispatch false st id fuel b ho (fun h => Bool.noConfusion h) ht,
      propWritesF_type_dispatch false st id fuel b ho (fun h => Bool.noConfusion h) ht⟩
  · intro ho hl ht
    exact propWritesF_type_dispatch true st id fuel b ho (fun _ => hl) ht
  · intro hl ho
    exact propWritesF_light_branch st id fuel hl ho

/-- Counterexample state for claim C1: `"L"` names both a light source
and a type whose bucket holds the visible object `"a"`. -/
def c1State : VState where
  objects := ["a"]
  objectTypes := [("a", "L")]
  objectVisible := []
  types := [("L", ["a"])]
  models := [("m", ⟨["a"], none⟩)]
  modelSrcs := []
  objectModels := [("a", "m")]
  annotations := []
  objectAnnotations := []
  lights := [("L", ⟨"dir", none, none, none, none, none⟩)]
  lightHelpers := []
  clips := []
  clipHelpers := []
  eulerAngles := []
  translations := []
  rotations := []
  scales := []
  transformable := []
  pivotOffsets := []
  components := []
  sceneAabb := ⟨0, 0, 0, 0, 0, 0⟩

/-- Claim C1 counterexample: the ID `"L"` resolves as a type in
`getObjects` (to `["a"]`), yet `hide("L")` takes the light branch and
leaves the state — in particular the visibility of `"a"` — completely
unchanged, so `setVisible` does not apply the
object → type → model → light/clip precedence the claim asserts for
every ID-resolving operation. -/
theorem claim1_counterexample :
    getObjects c1State (.str "L") = ["a"] ∧
    setVisibleF 5 c1State (.str "L") false = c1State ∧
    visibleOf (setVisibleF 5 c1State (.str "L") false) "a" = true := by
  refine ⟨by decide, by decide, by decide⟩

theorem claim1_witness :
    getObjects c6State (.str "DEFAULT") = ["a"] ∧
    setVisibleF 4 c6State (.str "DEFAULT") false
      = setVisibleF 3 c6State (.arr ["a"]) false ∧
    (setVisibleF 3 c1State (.str "L") false).objectVisible = c1State.objectVisible ∧
    setOpacityF 4 c1State (.str "L") = setOpacityF 3 c1State (.arr ["a"]) ∧
    setClippableF 4 c1State (.str "L") = setClippableF 3 c1State (.arr ["a"]) ∧
    setPickableF 4 c1State (.str "L") = setPickableF 3 c1State (.arr ["a"]) ∧
    setOutlineF 4 c1State (.str "L") = setOutlineF 3 c1State (.arr ["a"]) ∧
    setColorF 4 c6State (.str "DEFAULT") = setColorF 3 c6State (.arr ["a"]) ∧
    setColorF 4 c1State (.str "L") = [.light "L"] := by
  have h := claim1_amended_precedence c6State "DEFAULT" 3 false ["a"]
  have h2 := claim1_amended_precedence c1State "L" 3 false ["a"]
  obtain ⟨g1, g2, g3, g4⟩ := h2.2.2.2.1 (by decide) (by decide)
  exact ⟨h.1 (by decide) (by decide),
    h.2.1 (by decide) (by decide) (by decide) (by decide),
    h2.2.2.1 (by decide) (by decide),
    g1, g2, g3, g4,
    h.2.2.2.2.1 (by decide) (by decide) (by decide),
    h2.2.2.2.2.2 (by decide) (by decide)⟩

/-- An entry of a `getAABB` target list: an ID string or an inline array
of numbers (a literal bounding box). -/
inductive AElem where
  | sid : String → AElem
  | nums : List ℚ → AElem
deriving DecidableEq, Repr

/-- A `getAABB` target: no argument, a single ID string, or an array. -/
inductive ATarget where
  | undef : ATarget
  | str : String → ATarget
  | arr : List AElem → ATarget
deriving DecidableEq, Repr

/-- A `getAABB` result: JS `null`, a bounding box, or the argument array
returned as-is by the `_isArray(target) && !_isString(target[0])` branch
(viewer.js lines 1487-1489). -/
inductive AResult where
  | null : AResult
  | box : AABB → AResult
  | raw : List AElem → AResult
deriving DecidableEq, Repr

/-- Accumulator of the multi-ID reduction loop of `getAABB` (viewer.js
lines 1522-1530): running min/max sentinels and the `valid` flag. -/
structure AFold where
  xmin : ℚ
  ymin : ℚ
  zmin : ℚ
  xmax : ℚ
  ymax : ℚ
  zmax : ℚ
  valid : Bool
deriving DecidableEq, Repr

/-- Merge of one bounding box into the accumulator (viewer.js lines
1560-1579) followed by `valid = true` (line 1600). -/
def mergeBox (acc : AFold) (bb : AABB) : AFold :=
  { xmin := if bb.xmin < acc.xmin then bb.xmin else acc.xmin,
    ymin := if bb.ymin < acc.ymin then bb.ymin else acc.ymin,
    zmin := if bb.zmin < acc.zmin then bb.zmin else acc.zmin,
    xmax := if bb.xmax > acc.xmax then bb.xmax else acc.xmax,
    ymax := if bb.ymax > acc.ymax then bb.ymax else acc.ymax,
    zmax := if bb.zmax > acc.zmax then bb.zmax else acc.zmax,
    valid := true }

/-- Merge of a point position into the accumulator (viewer.js lines
1580-1599): the mins see `pos[0..2]`, but the max tests read `pos[3]`,
`pos[4]`, `pos[5]`, which are `undefined` on a 3-element position, and
`undefined > xmax` is false — so the max components never change. -/
def mergePos (acc : AFold) (p : Vec3) : AFold :=
  { acc with
    xmin := if p.x < acc.xmin then p.x else acc.xmin,
    ymin := if p.y < acc.ymin then p.y else acc.ymin,
    zmin := if p.z < acc.zmin then p.z else acc.zmin,
    valid := true }

/-- One iteration of the multi-ID loop of `getAABB` (viewer.js lines
1531-1601), parameterized by the recursive call used for type buckets
(line 1555). A non-string entry fails the `scene.components`/`types`
lookups (its coerced key matches nothing) and is skipped. A type bucket
whose recursive result is not a box (JS `null`) contributes no box, but
line 1600 still sets `valid`. -/
def aabbStep (recur : ATarget → AResult) (st : VState) (acc : AFold) (e : AElem) : AFold :=
  match e with
  | .nums _ => acc
  | .sid id =>
    let comp : Option CompRec :=
      match lookupA st.components id with
      | some c => some c
      | none =>
        match lookupA st.models id with
        | some mr => some ⟨mr.maabb, none⟩
        | none => none
    match comp with
    | some c =>
      match c.worldBoundary with
      | some bb => mergeBox acc bb
      | none =>
        match c.pos with
        | some p => mergePos acc p
        | none => acc
    | none =>
      match lookupA st.types id with
      | some bucket =>
        if bucket = [] then acc
        else
          match recur (.arr (bucket.map AElem.sid)) with
          | .box bb => mergeBox acc bb
          | _ => { acc with valid := true }
      | none => acc

/-- The single-ID branch of `getAABB` (viewer.js lines 1500-1517): a
component's world boundary, else `null` for a boundary-less component
(the TODO at line 1508), else a type bucket resolved recursively, else
`null` (line 1516). -/
def aabbSingle (recur : ATarget → AResult) (st : VState) (id : String) : AResult :=
  match lookupA st.components id with
  | some c =>
    match c.worldBoundary with
    | some bb => .box bb
    | none => .null
  | none =>
    match lookupA st.types id with
    | some bucket => recur (.arr (bucket.map AElem.sid))
    | none => .null

/-- Fuel-indexed embedding of `getAABB` (viewer.js lines 1483-1614).
No argument returns the scene boundary; an array whose first element is
not a string (in particular an empty array) is returned as-is; a single
ID (bare or in a singleton list) goes through the single branch; longer
lists run the min/max reduction, falling back to the scene boundary when
no entry contributed (`valid` stayed false). -/
def getAABBF : Nat → VState → ATarget → AResult
  | 0, _, _ => .null
  | _ + 1, st, .undef => .box st.sceneAabb
  | fuel + 1, st, .str id => aabbSingle (getAABBF fuel st) st id
  | fuel + 1, st, .arr elems =>
    match elems with
    | [] => .raw []
    | .nums ns :: rest => .raw (AElem.nums ns :: rest)
    | [.sid id] => aabbSingle (getAABBF fuel st) st id
    | .sid id1 :: e2 :: rest =>
      let r := (AElem.sid id1 :: e2 :: rest).foldl (aabbStep (getAABBF fuel st) st)
        ⟨100000, 100000, 100000, -100000, -100000, -100000, false⟩
      if r.valid then .box ⟨r.xmin, r.ymin, r.zmin, r.xmax, r.ymax, r.zmax⟩
      else .box st.sceneAabb

/-- An entry that resolves to nothing in the multi-ID loop: an ID
matching no component, model or type, or a non-string entry. -/
def aelemUnresolvable (st : VState) : AElem → Prop
  | .sid i => lookupA st.components i = none ∧ lookupA st.models i = none ∧
      lookupA st.types i = none
  | .nums _ => True

instance aelemUnresolvableDecidable (st : VState) (e : AElem) :
    Decidable (aelemUnresolvable st e) := by
  unfold aelemUnresolvable
  cases e <;> infer_instance

theorem aabbStep_unresolvable (recur : ATarget → AResult) (st : VState) (acc : AFold)
    (e : AElem) (h : aelemUnresolvable st e) : aabbStep recur st acc e = acc := by
  cases e with
  | nums ns => rfl
  | sid i =>
    obtain ⟨hc, hm, ht⟩ := h
    simp [aabbStep, hc, hm, ht]

/-- Claim C4 (amended): `getAABB` with no argument returns the
full-scene box; a list of two or more entries none of which resolves
also returns the full-scene box (`valid` stays false); but a single
unresolved ID — bare or as the only list entry — returns `null`, and an
empty list is returned as-is rather than as the scene box. -/
theorem claim4_amended_aabb_fallbacks (st : VState) (fuel : Nat) :
    (getAABBF (fuel + 1) st .undef = .box st.sceneAabb) ∧
    (∀ id, lookupA st.components id = none → lookupA st.types id = none →
      getAABBF (fuel + 1) st (.str id) = .null ∧
      getAABBF (fuel + 1) st (.arr [.sid id]) = .null) ∧
    (∀ id1 e2 rest, (∀ e ∈ (AElem.sid id1 :: e2 :: rest), aelemUnresolvable st e) →
      getAABBF (fuel + 1) st (.arr (.sid id1 :: e2 :: rest)) = .box st.sceneAabb) ∧
    (getAABBF (fuel + 1) st (.arr []) = .raw []) := by
  refine ⟨rfl, ?_, ?_, rfl⟩
  · intro id hc ht
    constructor
    · rw [getAABBF, aabbSingle, hc, ht]
    · show aabbSingle (getAABBF fuel st) st id = .null
      rw [aabbSingle, hc, ht]
  · intro id1 e2 rest hall
    show (if ((AElem.sid id1 :: e2 :: rest).foldl (aabbStep (getAABBF fuel st) st)
        ⟨100000, 100000, 100000, -100000, -100000, -100000, false⟩).valid
      then _ else AResult.box st.sceneAabb) = AResult.box st.sceneAabb
    have hfold : ∀ (l : List AElem) (acc : AFold), (∀ e ∈ l, aelemUnresolvable st e) →
        l.foldl (aabbStep (getAABBF fuel st) st) acc = acc := by
      intro l
      induction l with
      | nil => intro acc _; rfl
      | cons e l ih =>
        intro acc hl
        rw [List.foldl_cons, aabbStep_unresolvable _ _ _ _ (hl e (by simp))]
        exact ih acc (fun e' he' => hl e' (by simp [he']))
    rw [hfold _ _ hall]
    rfl

/-- Counterexample state for claim C4: an empty scene whose full-scene
boundary is the unit box. -/
def c4State : VState where
  objects := []
  objectTypes := []
  objectVisible := []
  types := []
  models := []
  modelSrcs := []
  objectModels := []
  annotations := []
  objectAnnotations := []
  lights := []
  lightHelpers := []
  clips := []
  clipHelpers := []
  eulerAngles := []
  translations := []
  rotations := []
  scales := []
  transformable := []
  pivotOffsets := []
  components := []
  sceneAabb := ⟨0, 0, 0, 1, 1, 1⟩

/-- Claim C4 counterexample: a single unresolved ID yields `null` (the
claim says `getAABB` never returns `null`), and an empty list is
returned as-is — the empty array, not the full-scene box (the dedicated
`target.length === 0` fallback at line 1493 is unreachable, because the
`!_isString(target[0])` check at line 1487 fires first on an empty
array). -/
theorem claim4_counterexample :
    getAABBF 5 c4State (.str "nope") = .null ∧
    getAABBF 5 c4State (.arr []) = .raw [] ∧
    AResult.raw [] ≠ .box c4State.sceneAabb ∧
    AResult.null ≠ .box c4State.sceneAabb := by
  refine ⟨by decide, rfl, by decide, by decide⟩

theorem claim4_witness :
    getAABBF 4 c4State .undef = .box c4State.sceneAabb ∧
    getAABBF 4 c4State (.arr [.sid "x", .sid "y"]) = .box c4State.sceneAabb := by
  have h := claim4_amended_aabb_fallbacks c4State 3
  refine ⟨h.1, h.2.2.1 "x" (.sid "y") [] ?_⟩
  intro e he
  fin_cases he <;> exact (by decide)

/-- JS string indexing `id[i]` over `id.length`: the list of
one-character strings of `id`. -/
def charStrs (s : String) : List String := s.data.map (fun c => String.mk [c])

/-- A `destroy` target: no argument, a single ID string, or a list. -/
inductive DTarget where
  | undef : DTarget
  | str : String → DTarget
  | arr : List String → DTarget
deriving DecidableEq, Repr

/-- The destroy-everything branch of `destroy` (viewer.js lines
3248-3264), taken for any falsy argument (no argument or the empty
string): the scene is destroyed and the listed maps are reset.  The
`types` and `lights`/`lightHelpers` maps are not reset there; the
per-object `meta.type`/`visible` data dies with the objects. -/
def resetState (st : VState) : VState :=
  { st with
    models := [], objects := [], objectTypes := [], objectVisible := [],
    objectModels := [], eulerAngles := [], transformable := [],
    translations := [], rotations := [], scales := [],
    annotations := [], objectAnnotations := [], clips := [], clipHelpers := [] }

/-- The annotation branch of `destroy` (viewer.js lines 3267-3278):
deregister from the target object's annotation list, then drop the
annotation itself. -/
def destroyAnnotationState (st : VState) (id : String) : VState :=
  let st1 := match lookupA st.annotations id with
    | some (some entId) =>
      match lookupA st.objectAnnotations entId with
      | some l =>
        { st with objectAnnotations :=
            updateA st.objectAnnotations entId (l.filter (fun x => decide (x ≠ id))) }
      | none => st
    | _ => st
  { st1 with annotations := removeA st1.annotations id }

/-- The light branch of `destroy` (viewer.js lines 3280-3295):
`this.hide(id)`, then drop the light and its helper. -/
def destroyLightState (fuel : Nat) (st : VState) (id : String) : VState :=
  let st1 := setVisibleF fuel st (.str id) false
  { st1 with lights := removeA st1.lights id, lightHelpers := removeA st1.lightHelpers id }

/-- The clip branch of `destroy` (viewer.js lines 3297-3312):
`this.hide(id)`, then drop the clip and its helper. -/
def destroyClipState (fuel : Nat) (st : VState) (id : String) : VState :=
  let st1 := setVisibleF fuel st (.str id) false
  { st1 with
    clips := st1.clips.filter (fun x => decide (x ≠ id)),
    clipHelpers := removeA st1.clipHelpers id }

/-- Per-entity cleanup inside the model branch of `destroy` (viewer.js
lines 3322-3344): deregister the object from the bucket named by its
`meta.type`, then delete it from `objects`, `objectModels` and every
transform map (the per-object `meta`/`visible` data dies with the
object). -/
def cleanupModelObject (st : VState) (o : String) : VState :=
  let ty := typeOf st o
  let types1 := match lookupA st.types ty with
    | some bucket => updateA st.types ty (bucket.filter (fun x => decide (x ≠ o)))
    | none => st.types
  { st with
    objects := st.objects.filter (fun x => decide (x ≠ o)),
    objectTypes := removeA st.objectTypes o,
    objectVisible := removeA st.objectVisible o,
    types := types1,
    objectModels := removeA st.objectModels o,
    eulerAngles := removeA st.eulerAngles o,
    transformable := st.transformable.filter (fun x => decide (x ≠ o)),
    translations := removeA st.translations o,
    rotations := removeA st.rotations o,
    scales := removeA st.scales o }

/-- The model branch of `destroy` (viewer.js lines 3314-3365): clean up
every owned entity, then delete the model's own entries (the
`aabbHelpers` cleanup at lines 3339-3350 deletes a property on the
helper object itself, not the `aabbHelpers` map, so it has no registry
effect). -/
def destroyModelState (st : VState) (id : String) : VState :=
  let ents := ((lookupA st.models id).map (fun mr => mr.entities)).getD []
  let st1 := ents.foldl cleanupModelObject st
  { st1 with
    models := removeA st1.models id,
    modelSrcs := removeA st1.modelSrcs id,
    eulerAngles := removeA st1.eulerAngles id,
    transformable := st1.transformable.filter (fun x => decide (x ≠ id)),
    translations := removeA st1.translations id,
    rotations := removeA st1.rotations id,
    scales := removeA st1.scales id }

/-- Fuel-indexed embedding of `destroy` (viewer.js lines 3246-3373).
String dispatch: falsy (empty) string → destroy everything; annotation;
light; clip; model; otherwise the string falls through to the final
list-iteration loop (lines 3368-3370), which indexes the string's
characters and recurses on each one-character string.  At fuel 0 the
result is `none`: `destroyF fuel st t = none` for every fuel means the
call does not terminate. -/
def destroyF : Nat → VState → DTarget → Option VState
  | 0, _, _ => none
  | _ + 1, st, .undef => some (resetState st)
  | fuel + 1, st, .str id =>
    if id = "" then some (resetState st)
    else if (lookupA st.annotations id).isSome then some (destroyAnnotationState st id)
    else if (lookupA st.lights id).isSome then some (destroyLightState fuel st id)
    else if id ∈ st.clips then some (destroyClipState fuel st id)
    else if (lookupA st.models id).isSome then some (destroyModelState st id)
    else (charStrs id).foldl (fun acc k => acc.bind (fun s => destroyF fuel s (.str k))) (some st)
  | fuel + 1, st, .arr ids =>
    ids.foldl (fun acc k => acc.bind (fun s => destroyF fuel s (.str k))) (some st)

/-- Projection forgetting the three visibility-flag maps, the only state
`setVisible` writes. -/
def stripVisibility (s : VState) : VState :=
  { s with objectVisible := [], lightHelpers := [], clipHelpers := [] }

theorem setVisibleF_strip (fuel : Nat) :
    ∀ (st : VState) (t : GTarget) (v : Bool),
      stripVisibility (setVisibleF fuel st t v) = stripVisibility st := by
  induction fuel with
  | zero => intro st t v; rfl
  | succ n ih =>
    intro st t v
    cases t with
    | undef =>
      show stripVisibility (setVisibleF n
        (setVisibleF n (setVisibleF n st (.arr st.objects) v)
          (.arr ((setVisibleF n st (.arr st.objects) v).lights.map (fun p => p.1))) v)
        (.arr (setVisibleF n (setVisibleF n st (.arr st.objects) v)
          (.arr ((setVisibleF n st (.arr st.objects) v).lights.map (fun p => p.1))) v).clips) v)
        = stripVisibility st
      rw [ih, ih, ih]
    | str id =>
      show stripVisibility (if id ∈ st.objects
          then { st with objectVisible := updateA st.objectVisible id v }
          else if (lookupA st.lights id).isSome then
            match lookupA st.lightHelpers id with
            | some _ => { st with lightHelpers := updateA st.lightHelpers id v }
            | none => st
          else
            match lookupA st.clipHelpers id with
            | some _ => { st with clipHelpers := updateA st.clipHelpers id v }
            | none =>
              match lookupA st.models id with
              | some _ => setVisibleF n st (.arr (getObjects st (.str id))) v
              | none =>
                match lookupA st.types id with
                | some bucket => if bucket = [] then st else setVisibleF n st (.arr bucket) v
                | none => st)
        = stripVisibility st
      by_cases ho : id ∈ st.objects
      · rw [if_pos ho]
        rfl
      · rw [if_neg ho]
        by_cases hl : (lookupA st.lights id).isSome
        · rw [if_pos hl]
          cases lookupA st.lightHelpers id <;> rfl
        · rw [if_neg hl]
          cases lookupA st.clipHelpers id with
          | some w => rfl
          | none =>
            cases lookupA st.models id with
            | some mr => exact ih _ _ _
            | none =>
              cases lookupA st.types id with
              | none => rfl
              | some bucket =>
                show stripVisibility (if bucket = [] then st
                    else setVisibleF n st (.arr bucket) v) = stripVisibility st
                by_cases hb : bucket = []
                · rw [if_pos hb]
                · rw [if_neg hb]
                  exact ih _ _ _
    | arr ids =>
      show stripVisibility (ids.foldl (fun s i => setVisibleF n s (.str i) v) st)
        = stripVisibility st
      induction ids generalizing st with
      | nil => rfl
      | cons i ids ihl =>
        rw [List.foldl_cons, ihl, ih]

theorem lookupA_removeA_none {α : Type} {l : List (String × α)} {k' : String} (k : String)
    (h : lookupA l k' = none) : lookupA (removeA l k) k' = none := by
  by_cases hk : k' = k
  · subst hk; exact lookupA_removeA_self l k'
  · rw [lookupA_removeA_ne l hk]; exact h

/-- Type-bucket well-formedness maintained by `loadModel` and `setType`:
bucket names are unique, and a bucket holds only registered objects
whose `meta.type` (with the `"DEFAULT"` fallback) names that bucket. -/
def wfBuckets (st : VState) : Prop :=
  (st.types.map (fun p => p.1)).Nodup ∧
  (∀ p ∈ st.types, ∀ x ∈ p.2, x ∈ st.objects ∧ typeOf st x = p.1)

instance wfBucketsDecidable (st : VState) : Decidable (wfBuckets st) := by
  unfold wfBuckets
  infer_instance

/-- An ID absent from the object map, from every type bucket, and from
all the transform-related indexes — what claim C5 requires of a
destroyed model's objects. -/
def removedFromRegistries (s : VState) (o : String) : Prop :=
  o ∉ s.objects ∧ (∀ p ∈ s.types, o ∉ p.2) ∧ lookupA s.objectModels o = none ∧
  lookupA s.eulerAngles o = none ∧ o ∉ s.transformable ∧
  lookupA s.translations o = none ∧ lookupA s.rotations o = none ∧
  lookupA s.scales o = none

instance removedFromRegistriesDecidable (s : VState) (o : String) :
    Decidable (removedFromRegistries s o) := by
  unfold removedFromRegistries
  infer_instance

theorem updateA_some_eq {α : Type} {l : List (String × α)} {k : String} {w : α} (v : α)
    (he : lookupA l k = some w) :
    updateA l k v = l.map (fun p => if p.1 = k then (k, v) else p) := by
  rw [updateA, he]

theorem cleanup_types_some {st : VState} {o : String} {bucket : List String}
    (he : lookupA st.types (typeOf st o) = some bucket) :
    (cleanupModelObject st o).types
      = st.types.map (fun p => if p.1 = typeOf st o
          then (typeOf st o, bucket.filter (fun x => decide (x ≠ o))) else p) := by
  show (match lookupA st.types (typeOf st o) with
    | some bucket => updateA st.types (typeOf st o) (bucket.filter (fun x => decide (x ≠ o)))
    | none => st.types) = _
  rw [he]
  show updateA st.types (typeOf st o) (bucket.filter (fun x => decide (x ≠ o)))
      = st.types.map (fun p => if p.1 = typeOf st o
          then (typeOf st o, bucket.filter (fun x => decide (x ≠ o))) else p)
  exact updateA_some_eq _ he

theorem cleanup_types_none {st : VState} {o : String}
    (he : lookupA st.types (typeOf st o) = none) :
    (cleanupModelObject st o).types = st.types := by
  show (match lookupA st.types (typeOf st o) with
    | some bucket => updateA st.types (typeOf st o) (bucket.filter (fun x => decide (x ≠ o)))
    | none => st.types) = _
  rw [he]

theorem cleanup_typeOf_ne {st : VState} {o x : String} (hxo : x ≠ o) :
    typeOf (cleanupModelObject st o) x = typeOf st x := by
  rw [typeOf, typeOf]
  have hOT : (cleanupModelObject st o).objectTypes = removeA st.objectTypes o := rfl
  rw [hOT, lookupA_removeA_ne _ hxo]

theorem cleanup_types_keys (st : VState) (o : String) :
    (cleanupModelObject st o).types.map (fun p => p.1) = st.types.map (fun p => p.1) := by
  cases he : lookupA st.types (typeOf st o) with
  | none => rw [cleanup_types_none he]
  | some bucket =>
    rw [cleanup_types_some he, List.map_map]
    apply List.map_congr_left
    intro p _
    by_cases hp : p.1 = typeOf st o <;> simp [Function.comp, hp]

theorem cleanup_removes (st : VState) (o : String) (hwfb : wfBuckets st) :
    removedFromRegistries (cleanupModelObject st o) o := by
  refine ⟨?_, ?_, ?_, ?_, ?_, ?_, ?_, ?_⟩
  · show o ∉ st.objects.filter (fun x => decide (x ≠ o))
    simp [List.mem_filter]
  · intro p' hp'
    cases he : lookupA st.types (typeOf st o) with
    | none =>
      rw [cleanup_types_none he] at hp'
      intro ho
      have hto := (hwfb.2 p' hp' o ho).2
      exact (lookupA_eq_none.mp he p' hp') hto.symm
    | some bucket =>
      rw [cleanup_types_some he] at hp'
      obtain ⟨p, hp, hfp⟩ := List.mem_map.mp hp'
      by_cases hpt : p.1 = typeOf st o
      · rw [if_pos hpt] at hfp
        rw [← hfp]
        simp [List.mem_filter]
      · rw [if_neg hpt] at hfp
        rw [← hfp]
        intro ho
        exact hpt ((hwfb.2 p hp o ho).2).symm
  · exact lookupA_removeA_self _ _
  · exact lookupA_removeA_self _ _
  · show o ∉ st.transformable.filter (fun x => decide (x ≠ o))
    simp [List.mem_filter]
  · exact lookupA_removeA_self _ _
  · exact lookupA_removeA_self _ _
  · exact lookupA_removeA_self _ _

theorem cleanup_preserves_removed (st : VState) (o' x : String)
    (h : removedFromRegistries st x) :
    removedFromRegistries (cleanupModelObject st o') x := by
  obtain ⟨h1, h2, h3, h4, h5, h6, h7, h8⟩ := h
  refine ⟨?_, ?_, lookupA_removeA_none _ h3, lookupA_removeA_none _ h4, ?_,
    lookupA_removeA_none _ h6, lookupA_removeA_none _ h7, lookupA_removeA_none _ h8⟩
  · show x ∉ st.objects.filter (fun y => decide (y ≠ o'))
    intro hx
    exact h1 (List.mem_of_mem_filter hx)
  · intro p' hp'
    cases he : lookupA st.types (typeOf st o') with
    | none =>
      rw [cleanup_types_none he] at hp'
      exact h2 p' hp'
    | some bucket =>
      rw [cleanup_types_some he] at hp'
      obtain ⟨p, hp, hfp⟩ := List.mem_map.mp hp'
      by_cases hpt : p.1 = typeOf st o'
      · rw [if_pos hpt] at hfp
        rw [← hfp]
        intro hx
        exact h2 _ (lookupA_mem he) (List.mem_of_mem_filter hx)
      · rw [if_neg hpt] at hfp
        rw [← hfp]
        exact h2 p hp
  · show x ∉ st.transformable.filter (fun y => decide (y ≠ o'))
    intro hx
    exact h5 (List.mem_of_mem_filter hx)

theorem cleanup_preserves_wfBuckets (st : VState) (o : String) (hwfb : wfBuckets st) :
    wfBuckets (cleanupModelObject st o) := by
  have hrem := cleanup_removes st o hwfb
  constructor
  · rw [cleanup_types_keys]
    exact hwfb.1
  · intro p' hp' x hx
    have hxo : x ≠ o := by
      intro hxo
      subst hxo
      exact hrem.2.1 p' hp' hx
    have hsrc : ∃ p ∈ st.types, p'.1 = p.1 ∧ x ∈ p.2 := by
      cases he : lookupA st.types (typeOf st o) with
      | none =>
        rw [cleanup_types_none he] at hp'
        exact ⟨p', hp', rfl, hx⟩
      | some bucket =>
        rw [cleanup_types_some he] at hp'
        obtain ⟨p, hp, hfp⟩ := List.mem_map.mp hp'
        by_cases hpt : p.1 = typeOf st o
        · rw [if_pos hpt] at hfp
          refine ⟨(typeOf st o, bucket), lookupA_mem he, ?_, ?_⟩
          · rw [← hfp]
          · rw [← hfp] at hx
            exact List.mem_of_mem_filter hx
        · rw [if_neg hpt] at hfp
          rw [← hfp] at hx
          exact ⟨p, hp, by rw [← hfp], hx⟩
    obtain ⟨p, hp, hkey, hxp⟩ := hsrc
    have hbase := hwfb.2 p hp x hxp
    constructor
    · show x ∈ st.objects.filter (fun y => decide (y ≠ o))
      rw [List.mem_filter]
      exact ⟨hbase.1, by simp [hxo]⟩
    · rw [cleanup_typeOf_ne hxo, hkey]
      exact hbase.2

theorem lookupA_none_iff_keys {α : Type} {l : List (String × α)} {k : String} :
    lookupA l k = none ↔ k ∉ l.map (fun p => p.1) := by
  rw [lookupA_eq_none]
  constructor
  · intro h hk
    obtain ⟨p, hp, hpk⟩ := List.mem_map.mp hk
    exact h p hp hpk
  · intro h p hp hpk
    exact h (List.mem_map.mpr ⟨p, hp, hpk⟩)

theorem cleanup_fold_preserves_removed (ents : List String) :
    ∀ (st : VState) (x : String), removedFromRegistries st x →
      removedFromRegistries (ents.foldl cleanupModelObject st) x := by
  induction ents with
  | nil => intro st x h; exact h
  | cons e ents ih =>
    intro st x h
    rw [List.foldl_cons]
    exact ih _ _ (cleanup_preserves_removed _ _ _ h)

theorem cleanup_fold_removes (ents : List String) :
    ∀ (st : VState), wfBuckets st →
      ∀ o ∈ ents, removedFromRegistries (ents.foldl cleanupModelObject st) o := by
  induction ents with
  | nil => intro st _ o ho; simp at ho
  | cons e ents ih =>
    intro st hwfb o ho
    rw [List.foldl_cons]
    rcases List.mem_cons.mp ho with he | he
    · subst he
      exact cleanup_fold_preserves_removed ents _ _ (cleanup_removes st o hwfb)
    · exact ih _ (cleanup_preserves_wfBuckets st e hwfb) o he

theorem cleanup_fold_objects_sub (ents : List String) :
    ∀ (st : VState) (x : String),
      x ∈ (ents.foldl cleanupModelObject st).objects → x ∈ st.objects := by
  induction ents with
  | nil => intro st x h; exact h
  | cons e ents ih =>
    intro st x h
    rw [List.foldl_cons] at h
    exact List.mem_of_mem_filter (ih _ _ h)

theorem cleanup_fold_types_keys (ents : List String) :
    ∀ (st : VState), (ents.foldl cleanupModelObject st).types.map (fun p => p.1)
      = st.types.map (fun p => p.1) := by
  induction ents with
  | nil => intro st; rfl
  | cons e ents ih =>
    intro st
    rw [List.foldl_cons, ih, cleanup_types_keys]

/-- Claim C5: destroying a loaded model removes every owned object from
the object map, from every type bucket and from all transform-related
indexes (`objectModels`, `eulerAngles`, `transformable`, `translations`,
`rotations`, `scales`), and a subsequent `getObjects` on the destroyed
model ID takes the logged not-found branch (result `none`). -/
theorem claim5_destroy_model_cleans_registries (st : VState) (m : String) (mr : ModelRec)
    (fuel : Nat)
    (hwfb : wfBuckets st)
    (hm : lookupA st.models m = some mr)
    (hne : m ≠ "")
    (hann : lookupA st.annotations m = none)
    (hlight : lookupA st.lights m = none)
    (hclip : m ∉ st.clips)
    (hmo : m ∉ st.objects)
    (hmt : lookupA st.types m = none) :
    destroyF (fuel + 1) st (.str m) = some (destroyModelState st m) ∧
    (∀ o ∈ mr.entities, removedFromRegistries (destroyModelState st m) o) ∧
    getObjectsOne (destroyModelState st m) m = none := by
  have hdisp : destroyF (fuel + 1) st (.str m) = some (destroyModelState st m) := by
    show (if m = "" then some (resetState st)
      else if (lookupA st.annotations m).isSome then some (destroyAnnotationState st m)
      else if (lookupA st.lights m).isSome then some (destroyLightState fuel st m)
      else if m ∈ st.clips then some (destroyClipState fuel st m)
      else if (lookupA st.models m).isSome then some (destroyModelState st m)
      else (charStrs m).foldl (fun acc k => acc.bind (fun s => destroyF fuel s (.str k)))
        (some st)) = some (destroyModelState st m)
    rw [if_neg hne, if_neg (by simp [hann]), if_neg (by simp [hlight]), if_neg hclip,
      if_pos (by rw [hm]; rfl)]
  have hents : ((lookupA st.models m).map (fun r => r.entities)).getD [] = mr.entities := by
    rw [hm]; rfl
  have hstruct : destroyModelState st m
      = { mr.entities.foldl cleanupModelObject st with
          models := removeA (mr.entities.foldl cleanupModelObject st).models m,
          modelSrcs := removeA (mr.entities.foldl cleanupModelObject st).modelSrcs m,
          eulerAngles := removeA (mr.entities.foldl cleanupModelObject st).eulerAngles m,
          transformable := (mr.entities.foldl cleanupModelObject st).transformable.filter
            (fun x => decide (x ≠ m)),
          translations := removeA (mr.entities.foldl cleanupModelObject st).translations m,
          rotations := removeA (mr.entities.foldl cleanupModelObject st).rotations m,
          scales := removeA (mr.entities.foldl cleanupModelObject st).scales m } := by
    rw [destroyModelState, hents]
  refine ⟨hdisp, ?_, ?_⟩
  · intro o ho
    have hbase := cleanup_fold_removes mr.entities st hwfb o ho
    rw [hstruct]
    obtain ⟨h1, h2, h3, h4, h5, h6, h7, h8⟩ := hbase
    exact ⟨h1, h2, h3, lookupA_removeA_none _ h4,
      fun hx => h5 (List.mem_of_mem_filter hx),
      lookupA_removeA_none _ h6, lookupA_removeA_none _ h7, lookupA_removeA_none _ h8⟩
  · have hobj : m ∉ (destroyModelState st m).objects := by
      rw [hstruct]
      intro hx
      exact hmo (cleanup_fold_objects_sub mr.entities st m hx)
    have htyp : lookupA (destroyModelState st m).types m = none := by
      rw [hstruct]
      show lookupA (mr.entities.foldl cleanupModelObject st).types m = none
      rw [lookupA_none_iff_keys, cleanup_fold_types_keys]
      exact lookupA_none_iff_keys.mp hmt
    have hmod : lookupA (destroyModelState st m).models m = none := by
      rw [hstruct]
      exact lookupA_removeA_self _ _
    rw [getObjectsOne, if_neg hobj, htyp, hmod]

/-- Witness state for claim C5: model `"m"` owning objects `"a"` and
`"b"`, both of default type. -/
def c5State : VState where
  objects := ["a", "b"]
  objectTypes := []
  objectVisible := []
  types := [("DEFAULT", ["a", "b"])]
  models := [("m", ⟨["a", "b"], none⟩)]
  modelSrcs := [("m", "m.gltf")]
  objectModels := [("a", "m"), ("b", "m")]
  annotations := []
  objectAnnotations := []
  lights := []
  lightHelpers := []
  clips := []
  clipHelpers := []
  eulerAngles := [("a", ⟨0, 0, 0⟩)]
  translations := [("a", ⟨1, 2, 3⟩)]
  rotations := []
  scales := [("a", ⟨2, 2, 2⟩)]
  transformable := ["a"]
  pivotOffsets := []
  components := []
  sceneAabb := ⟨0, 0, 0, 0, 0, 0⟩

theorem claim5_witness :
    destroyF 3 c5State (.str "m") = some (destroyModelState c5State "m") ∧
    removedFromRegistries (destroyModelState c5State "m") "a" ∧
    getObjectsOne (destroyModelState c5State "m") "m" = none := by
  have h := claim5_destroy_model_cleans_registries c5State "m" ⟨["a", "b"], none⟩ 2
    (by decide) (by decide) (by decide) (by decide) (by decide) (by decide)
    (by decide) (by decide)
  exact ⟨h.1, h.2.1 "a" (by decide), h.2.2⟩

theorem setVisibleF_annotations (fuel : Nat) (st : VState) (t : GTarget) (v : Bool) :
    (setVisibleF fuel st t v).annotations = st.annotations := by
  have h := congrArg VState.annotations (setVisibleF_strip fuel st t v)
  exact h

theorem setVisibleF_lights (fuel : Nat) (st : VState) (t : GTarget) (v : Bool) :
    (setVisibleF fuel st t v).lights = st.lights := by
  have h := congrArg VState.lights (setVisibleF_strip fuel st t v)
  exact h

theorem setVisibleF_clips (fuel : Nat) (st : VState) (t : GTarget) (v : Bool) :
    (setVisibleF fuel st t v).clips = st.clips := by
  have h := congrArg VState.clips (setVisibleF_strip fuel st t v)
  exact h

theorem setVisibleF_models (fuel : Nat) (st : VState) (t : GTarget) (v : Bool) :
    (setVisibleF fuel st t v).models = st.models := by
  have h := congrArg VState.models (setVisibleF_strip fuel st t v)
  exact h

theorem setVisibleF_objects (fuel : Nat) (st : VState) (t : GTarget) (v : Bool) :
    (setVisibleF fuel st t v).objects = st.objects := by
  have h := congrArg VState.objects (setVisibleF_strip fuel st t v)
  exact h

/-- An ID that denotes no annotation, light, clip plane or model — the
IDs on which `destroy`'s string dispatch falls through to the character
loop. -/
def unregistered (st : VState) (k : String) : Prop :=
  lookupA st.annotations k = none ∧ lookupA st.lights k = none ∧
  k ∉ st.clips ∧ lookupA st.models k = none

instance unregisteredDecidable (st : VState) (k : String) : Decidable (unregistered st k) := by
  unfold unregistered
  infer_instance

theorem destroyAnnotationState_fields (st : VState) (id : String) :
    (destroyAnnotationState st id).annotations = removeA st.annotations id ∧
    (destroyAnnotationState st id).lights = st.lights ∧
    (destroyAnnotationState st id).clips = st.clips ∧
    (destroyAnnotationState st id).models = st.models := by
  cases ha : lookupA st.annotations id with
  | none => simp [destroyAnnotationState, ha]
  | some oe =>
    cases oe with
    | none => simp [destroyAnnotationState, ha]
    | some ent =>
      cases hoa : lookupA st.objectAnnotations ent with
      | none => simp [destroyAnnotationState, ha, hoa]
      | some l => simp [destroyAnnotationState, ha, hoa]

theorem cleanup_fold_annotations (ents : List String) :
    ∀ (st : VState), (ents.foldl cleanupModelObject st).annotations = st.annotations := by
  induction ents with
  | nil => intro st; rfl
  | cons e ents ih => intro st; rw [List.foldl_cons, ih]; rfl

theorem cleanup_fold_lights (ents : List String) :
    ∀ (st : VState), (ents.foldl cleanupModelObject st).lights = st.lights := by
  induction ents with
  | nil => intro st; rfl
  | cons e ents ih => intro st; rw [List.foldl_cons, ih]; rfl

theorem cleanup_fold_clips (ents : List String) :
    ∀ (st : VState), (ents.foldl cleanupModelObject st).clips = st.clips := by
  induction ents with
  | nil => intro st; rfl
  | cons e ents ih => intro st; rw [List.foldl_cons, ih]; rfl

theorem cleanup_fold_models (ents : List String) :
    ∀ (st : VState), (ents.foldl cleanupModelObject st).models = st.models := by
  induction ents with
  | nil => intro st; rfl
  | cons e ents ih => intro st; rw [List.foldl_cons, ih]; rfl

theorem destroyModelState_unreg (st : VState) (id k : String) (hk : unregistered st k) :
    unregistered (destroyModelState st id) k := by
  obtain ⟨h1, h2, h3, h4⟩ := hk
  refine ⟨?_, ?_, ?_, ?_⟩
  · show lookupA ((((lookupA st.models id).map (fun mr => mr.entities)).getD []).foldl
        cleanupModelObject st).annotations k = none
    rw [cleanup_fold_annotations]
    exact h1
  · show lookupA ((((lookupA st.models id).map (fun mr => mr.entities)).getD []).foldl
        cleanupModelObject st).lights k = none
    rw [cleanup_fold_lights]
    exact h2
  · show k ∉ ((((lookupA st.models id).map (fun mr => mr.entities)).getD []).foldl
        cleanupModelObject st).clips
    rw [cleanup_fold_clips]
    exact h3
  · show lookupA (removeA ((((lookupA st.models id).map (fun mr => mr.entities)).getD []).foldl
        cleanupModelObject st).models id) k = none
    rw [lookupA_none_iff_keys] at h4 ⊢
    intro hmem
    apply h4
    obtain ⟨p, hp, hpk⟩ := List.mem_map.mp hmem
    have hp2 : p ∈ ((((lookupA st.models id).map (fun mr => mr.entities)).getD []).foldl
        cleanupModelObject st).models := List.mem_of_mem_filter hp
    rw [cleanup_fold_models] at hp2
    exact List.mem_map.mpr ⟨p, hp2, hpk⟩

theorem foldl_bind_none (d : VState → String → Option VState) (l : List String) :
    l.foldl (fun acc k => acc.bind (fun s => d s k)) none = none := by
  induction l with
  | nil => rfl
  | cons k l ih => rw [List.foldl_cons]; exact ih

theorem foldl_bind_preserves (d : VState → String → Option VState)
    (hd : ∀ s k s', d s k = some s' → ∀ x, unregistered s x → unregistered s' x) :
    ∀ (l : List String) (st st' : VState),
      l.foldl (fun acc k => acc.bind (fun s => d s k)) (some st) = some st' →
      ∀ x, unregistered st x → unregistered st' x := by
  intro l
  induction l with
  | nil =>
    intro st st' h x hx
    have : st = st' := by injection h
    rw [← this]
    exact hx
  | cons kk l ihl =>
    intro st st' h x hx
    rw [List.foldl_cons] at h
    cases hd1 : d st kk with
    | none =>
      rw [show ((some st).bind (fun s => d s kk)) = d st kk from rfl, hd1,
        foldl_bind_none] at h
      exact absurd h (by simp)
    | some s1 =>
      rw [show ((some st).bind (fun s => d s kk)) = d st kk from rfl, hd1] at h
      exact ihl s1 st' h x (hd st kk s1 hd1 x hx)

theorem destroyF_preserves_unregistered :
    ∀ (fuel : Nat) (st : VState) (t : DTarget) (st' : VState),
      destroyF fuel st t = some st' → ∀ k, unregistered st k → unregistered st' k := by
  intro fuel
  induction fuel with
  | zero =>
    intro st t st' h
    simp [destroyF] at h
  | succ n ih =>
    intro st t st' h k hk
    obtain ⟨h1, h2, h3, h4⟩ := hk
    cases t with
    | undef =>
      have hst : st' = resetState st := by
        have : some (resetState st) = some st' := h
        injection this with hh
        exact hh.symm
      subst hst
      exact ⟨rfl, h2, by simp [resetState], rfl⟩
    | arr ids =>
      have hstep : destroyF (n + 1) st (.arr ids)
          = ids.foldl (fun acc k2 => acc.bind (fun s => destroyF n s (.str k2))) (some st) := rfl
      rw [hstep] at h
      exact foldl_bind_preserves _ (fun s k2 s2 hh => ih s (.str k2) s2 hh) ids st st' h k
        ⟨h1, h2, h3, h4⟩
    | str id =>
      have hstep : destroyF (n + 1) st (.str id)
          = (if id = "" then some (resetState st)
            else if (lookupA st.annotations id).isSome then some (destroyAnnotationState st id)
            else if (lookupA st.lights id).isSome then some (destroyLightState n st id)
            else if id ∈ st.clips then some (destroyClipState n st id)
            else if (lookupA st.models id).isSome then some (destroyModelState st id)
            else (charStrs id).foldl
              (fun acc k2 => acc.bind (fun s => destroyF n s (.str k2))) (some st)) := rfl
      rw [hstep] at h
      by_cases he : id = ""
      · rw [if_pos he] at h
        have hst : st' = resetState st := by injection h with hh; exact hh.symm
        subst hst
        exact ⟨rfl, h2, by simp [resetState], rfl⟩
      · rw [if_neg he] at h
        by_cases ha : (lookupA st.annotations id).isSome
        · rw [if_pos ha] at h
          have hst : st' = destroyAnnotationState st id := by injection h with hh; exact hh.symm
          subst hst
          obtain ⟨f1, f2, f3, f4⟩ := destroyAnnotationState_fields st id
          exact ⟨by rw [f1]; exact lookupA_removeA_none _ h1, by rw [f2]; exact h2,
            by rw [f3]; exact h3, by rw [f4]; exact h4⟩
        · rw [if_neg ha] at h
          by_cases hl : (lookupA st.lights id).isSome
          · rw [if_pos hl] at h
            have hst : st' = destroyLightState n st id := by injection h with hh; exact hh.symm
            subst hst
            refine ⟨?_, ?_, ?_, ?_⟩
            · show lookupA (setVisibleF n st (.str id) false).annotations k = none
              rw [setVisibleF_annotations]; exact h1
            · show lookupA (removeA (setVisibleF n st (.str id) false).lights id) k = none
              rw [setVisibleF_lights]; exact lookupA_removeA_none _ h2
            · show k ∉ (setVisibleF n st (.str id) false).clips
              rw [setVisibleF_clips]; exact h3
            · show lookupA (setVisibleF n st (.str id) false).models k = none
              rw [setVisibleF_models]; exact h4
          · rw [if_neg hl] at h
            by_cases hc : id ∈ st.clips
            · rw [if_pos hc] at h
              have hst : st' = destroyClipState n st id := by injection h with hh; exact hh.symm
              subst hst
              refine ⟨?_, ?_, ?_, ?_⟩
              · show lookupA (setVisibleF n st (.str id) false).annotations k = none
                rw [setVisibleF_annotations]; exact h1
              · show lookupA (setVisibleF n st (.str id) false).lights k = none
                rw [setVisibleF_lights]; exact h2
              · show k ∉ (setVisibleF n st (.str id) false).clips.filter
                  (fun x => decide (x ≠ id))
                intro hx
                have := List.mem_of_mem_filter hx
                rw [setVisibleF_clips] at this
                exact h3 this
              · show lookupA (setVisibleF n st (.str id) false).models k = none
                rw [setVisibleF_models]; exact h4
            · rw [if_neg hc] at h
              by_cases hm : (lookupA st.models id).isSome
              · rw [if_pos hm] at h
                have hst : st' = destroyModelState st id := by injection h with hh; exact hh.symm
                subst hst
                exact destroyModelState_unreg st id k ⟨h1, h2, h3, h4⟩
              · rw [if_neg hm] at h
                exact foldl_bind_preserves _ (fun s k2 s2 hh => ih s (.str k2) s2 hh)
                  (charStrs id) st st' h k ⟨h1, h2, h3, h4⟩

theorem destroyF_single_char_loops (c : Char) :
    ∀ (fuel : Nat) (st : VState), unregistered st (String.mk [c]) →
      destroyF fuel st (.str (String.mk [c])) = none := by
  intro fuel
  induction fuel with
  | zero => intro st _; rfl
  | succ n ih =>
    intro st hu
    obtain ⟨h1, h2, h3, h4⟩ := hu
    have hne : String.mk [c] ≠ "" := by
      intro hh
      have := congrArg String.data hh
      simp at this
    have hstep : destroyF (n + 1) st (.str (String.mk [c]))
        = (if String.mk [c] = "" then some (resetState st)
          else if (lookupA st.annotations (String.mk [c])).isSome then
            some (destroyAnnotationState st (String.mk [c]))
          else if (lookupA st.lights (String.mk [c])).isSome then
            some (destroyLightState n st (String.mk [c]))
          else if String.mk [c] ∈ st.clips then some (destroyClipState n st (String.mk [c]))
          else if (lookupA st.models (String.mk [c])).isSome then
            some (destroyModelState st (String.mk [c]))
          else (charStrs (String.mk [c])).foldl
            (fun acc k2 => acc.bind (fun s => destroyF n s (.str k2))) (some st)) := rfl
    rw [hstep, if_neg hne, if_neg (by simp [h1]), if_neg (by simp [h2]), if_neg h3,
      if_neg (by simp [h4])]
    show [String.mk [c]].foldl (fun acc k2 => acc.bind (fun s => destroyF n s (.str k2)))
      (some st) = none
    rw [List.foldl_cons]
    rw [show ((some st).bind (fun s => destroyF n s (.str (String.mk [c]))))
      = destroyF n st (.str (String.mk [c])) from rfl]
    rw [ih st ⟨h1, h2, h3, h4⟩]
    rfl

theorem destroy_charfold_none (n : Nat) :
    ∀ (cs : List Char) (st : VState),
      (∃ c ∈ cs, unregistered st (String.mk [c])) →
      (cs.map (fun c => String.mk [c])).foldl
        (fun acc k2 => acc.bind (fun s => destroyF n s (.str k2))) (some st) = none := by
  intro cs
  induction cs with
  | nil =>
    intro st h
    obtain ⟨c, hc, _⟩ := h
    simp at hc
  | cons c0 cs ih =>
    intro st h
    rw [List.map_cons, List.foldl_cons]
    rw [show ((some st).bind (fun s => destroyF n s (.str (String.mk [c0]))))
      = destroyF n st (.str (String.mk [c0])) from rfl]
    obtain ⟨c, hc, hcu⟩ := h
    cases hd : destroyF n st (.str (String.mk [c0])) with
    | none => exact foldl_bind_none _ _
    | some s1 =>
      rcases List.mem_cons.mp hc with hcc | hcc
      · subst hcc
        rw [destroyF_single_char_loops c n st hcu] at hd
        exact absurd hd (by simp)
      · apply ih s1
        exact ⟨c, hcc, destroyF_preserves_unregistered n st _ s1 hd _ hcu⟩

/-- Claim C10 (amended): `destroy(id)` on a non-empty string that
denotes no annotation, light, clip or model falls through to the
character loop; if moreover some character of `id` (as a one-character
string) also denotes no such entity — in particular for any object ID or
unknown ID containing at least one character that never names one of
those entities — the recursion never terminates: the one-character
string re-enters the loop as itself, forever.  In the fuel model, the
call returns `none` at every fuel. -/
theorem claim10_amended_destroy_diverges (st : VState) (id : String) (c : Char)
    (hne : id ≠ "")
    (hunreg : unregistered st id)
    (hc : c ∈ id.data)
    (hcu : unregistered st (String.mk [c])) :
    ∀ fuel, destroyF fuel st (.str id) = none := by
  intro fuel
  cases fuel with
  | zero => rfl
  | succ n =>
    obtain ⟨h1, h2, h3, h4⟩ := hunreg
    have hstep : destroyF (n + 1) st (.str id)
        = (if id = "" then some (resetState st)
          else if (lookupA st.annotations id).isSome then some (destroyAnnotationState st id)
          else if (lookupA st.lights id).isSome then some (destroyLightState n st id)
          else if id ∈ st.clips then some (destroyClipState n st id)
          else if (lookupA st.models id).isSome then some (destroyModelState st id)
          else (charStrs id).foldl
            (fun acc k2 => acc.bind (fun s => destroyF n s (.str k2))) (some st)) := rfl
    rw [hstep, if_neg hne, if_neg (by simp [h1]), if_neg (by simp [h2]), if_neg h3,
      if_neg (by simp [h4])]
    exact destroy_charfold_none n id.data st ⟨c, hc, hcu⟩

/-- Counterexample state for claim C10: single-character models `"a"`
and `"b"` are loaded. -/
def c10State : VState where
  objects := []
  objectTypes := []
  objectVisible := []
  types := []
  models := [("a", ⟨[], none⟩), ("b", ⟨[], none⟩)]
  modelSrcs := []
  objectModels := []
  annotations := []
  objectAnnotations := []
  lights := []
  lightHelpers := []
  clips := []
  clipHelpers := []
  eulerAngles := []
  translations := []
  rotations := []
  scales := []
  transformable := []
  pivotOffsets := []
  components := []
  sceneAabb := ⟨0, 0, 0, 0, 0, 0⟩

/-- Claim C10 counterexample: `"ab"` is a non-empty string denoting no
annotation, light, clip or model, yet `destroy("ab")` terminates (with
two fuel units): each character names a loaded model, which the
fall-through loop destroys. -/
theorem claim10_counterexample :
    "ab" ≠ "" ∧ unregistered c10State "ab" ∧ "ab" ∉ c10State.objects ∧
    (destroyF 2 c10State (.str "ab")).isSome = true := by
  refine ⟨by decide, by decide, by decide, ?_⟩
  rfl

theorem claim10_witness :
    destroyF 7 c10State (.str "zz") = none :=
  claim10_amended_destroy_diverges c10State "zz" 'z' (by decide) (by decide)
    (by decide) (by decide) 7

theorem lookupA_of_mem_nodup {α : Type} {l : List (String × α)} {k : String} {v : α}
    (hnd : (l.map (fun p => p.1)).Nodup) (hm : (k, v) ∈ l) : lookupA l k = some v := by
  induction l with
  | nil => simp at hm
  | cons p rest ih =>
    rw [List.map_cons, List.nodup_cons] at hnd
    rcases List.mem_cons.mp hm with he | he
    · rw [← he]
      rw [lookupA, if_pos rfl]
    · have hpk : p.1 ≠ k := by
        intro hh
        exact hnd.1 (List.mem_map.mpr ⟨(k, v), he, hh.symm⟩)
      rw [lookupA, if_neg hpk]
      exact ih hnd.2 he

theorem destroyF_model_branch (fuel : Nat) (st : VState) (m : String)
    (hne : m ≠ "") (hann : lookupA st.annotations m = none)
    (hlight : lookupA st.lights m = none) (hclip : m ∉ st.clips)
    (hm : (lookupA st.models m).isSome) :
    destroyF (fuel + 1) st (.str m) = some (destroyModelState st m) := by
  show (if m = "" then some (resetState st)
    else if (lookupA st.annotations m).isSome then some (destroyAnnotationState st m)
    else if (lookupA st.lights m).isSome then some (destroyLightState fuel st m)
    else if m ∈ st.clips then some (destroyClipState fuel st m)
    else if (lookupA st.models m).isSome then some (destroyModelState st m)
    else (charStrs m).foldl (fun acc k => acc.bind (fun s => destroyF fuel s (.str k)))
      (some st)) = some (destroyModelState st m)
  rw [if_neg hne, if_neg (by simp [hann]), if_neg (by simp [hlight]), if_neg hclip,
    if_pos hm]

theorem destroyF_ann_branch (fuel : Nat) (st : VState) (a : String)
    (hne : a ≠ "") (hann : (lookupA st.annotations a).isSome) :
    destroyF (fuel + 1) st (.str a) = some (destroyAnnotationState st a) := by
  show (if a = "" then some (resetState st)
    else if (lookupA st.annotations a).isSome then some (destroyAnnotationState st a)
    else if (lookupA st.lights a).isSome then some (destroyLightState fuel st a)
    else if a ∈ st.clips then some (destroyClipState fuel st a)
    else if (lookupA st.models a).isSome then some (destroyModelState st a)
    else (charStrs a).foldl (fun acc k => acc.bind (fun s => destroyF fuel s (.str k)))
      (some st)) = some (destroyAnnotationState st a)
  rw [if_neg hne, if_pos hann]

theorem destroyF_light_branch (fuel : Nat) (st : VState) (li : String)
    (hne : li ≠ "") (hann : lookupA st.annotations li = none)
    (hlight : (lookupA st.lights li).isSome) :
    destroyF (fuel + 1) st (.str li) = some (destroyLightState fuel st li) := by
  show (if li = "" then some (resetState st)
    else if (lookupA st.annotations li).isSome then some (destroyAnnotationState st li)
    else if (lookupA st.lights li).isSome then some (destroyLightState fuel st li)
    else if li ∈ st.clips then some (destroyClipState fuel st li)
    else if (lookupA st.models li).isSome then some (destroyModelState st li)
    else (charStrs li).foldl (fun acc k => acc.bind (fun s => destroyF fuel s (.str k)))
      (some st)) = some (destroyLightState fuel st li)
  rw [if_neg hne, if_neg (by simp [hann]), if_pos hlight]

theorem destroyF_clip_branch (fuel : Nat) (st : VState) (c : String)
    (hne : c ≠ "") (hann : lookupA st.annotations c = none)
    (hlight : lookupA st.lights c = none) (hclip : c ∈ st.clips) :
    destroyF (fuel + 1) st (.str c) = some (destroyClipState fuel st c) := by
  show (if c = "" then some (resetState st)
    else if (lookupA st.annotations c).isSome then some (destroyAnnotationState st c)
    else if (lookupA st.lights c).isSome then some (destroyLightState fuel st c)
    else if c ∈ st.clips then some (destroyClipState fuel st c)
    else if (lookupA st.models c).isSome then some (destroyModelState st c)
    else (charStrs c).foldl (fun acc k => acc.bind (fun s => destroyF fuel s (.str k)))
      (some st)) = some (destroyClipState fuel st c)
  rw [if_neg hne, if_neg (by simp [hann]), if_neg (by simp [hlight]), if_pos hclip]

theorem destroyModelState_annotations (st : VState) (id : String) :
    (destroyModelState st id).annotations = st.annotations := by
  show ((((lookupA st.models id).map (fun mr => mr.entities)).getD []).foldl
    cleanupModelObject st).annotations = st.annotations
  rw [cleanup_fold_annotations]

theorem destroyModelState_lights (st : VState) (id : String) :
    (destroyModelState st id).lights = st.lights := by
  show ((((lookupA st.models id).map (fun mr => mr.entities)).getD []).foldl
    cleanupModelObject st).lights = st.lights
  rw [cleanup_fold_lights]

theorem destroyModelState_clips (st : VState) (id : String) :
    (destroyModelState st id).clips = st.clips := by
  show ((((lookupA st.models id).map (fun mr => mr.entities)).getD []).foldl
    cleanupModelObject st).clips = st.clips
  rw [cleanup_fold_clips]

theorem destroyModelState_models (st : VState) (id : String) :
    (destroyModelState st id).models = removeA st.models id := by
  show removeA ((((lookupA st.models id).map (fun mr => mr.entities)).getD []).foldl
    cleanupModelObject st).models id = removeA st.models id
  rw [cleanup_fold_models]

theorem cleanup_fold_objects_notin (ents : List String) :
    ∀ (st : VState) (x : String), x ∈ (ents.foldl cleanupModelObject st).objects → x ∉ ents := by
  induction ents with
  | nil => intro st x _; simp
  | cons e ents ih =>
    intro st x h
    rw [List.foldl_cons] at h
    have hxe : x ∈ (cleanupModelObject st e).objects := cleanup_fold_objects_sub ents _ x h
    have : x ≠ e := by
      intro hh
      subst hh
      have hmem := List.mem_filter.mp hxe
      simp at hmem
    intro hmem
    rcases List.mem_cons.mp hmem with hh | hh
    · exact this hh
    · exact ih _ x h hh

theorem destroyModelState_objects_sub (st : VState) (id x : String)
    (h : x ∈ (destroyModelState st id).objects) :
    x ∈ st.objects ∧ x ∉ ((lookupA st.models id).map (fun mr => mr.entities)).getD [] := by
  have h' : x ∈ ((((lookupA st.models id).map (fun mr => mr.entities)).getD []).foldl
      cleanupModelObject st).objects := h
  exact ⟨cleanup_fold_objects_sub _ _ _ h', cleanup_fold_objects_notin _ _ _ h'⟩

theorem destroyAnnotationState_objects (st : VState) (id : String) :
    (destroyAnnotationState st id).objects = st.objects := by
  cases ha : lookupA st.annotations id with
  | none => simp [destroyAnnotationState, ha]
  | some oe =>
    cases oe with
    | none => simp [destroyAnnotationState, ha]
    | some ent =>
      cases hoa : lookupA st.objectAnnotations ent with
      | none => simp [destroyAnnotationState, ha, hoa]
      | some l => simp [destroyAnnotationState, ha, hoa]

theorem clear_models_stage (fuel : Nat) :
    ∀ (keys : List String) (st : VState),
      keys.Nodup →
      (∀ k ∈ keys, (lookupA st.models k).isSome ∧ k ≠ "" ∧ lookupA st.annotations k = none ∧
        lookupA st.lights k = none ∧ k ∉ st.clips) →
      (∀ p ∈ st.models, p.1 ∈ keys) →
      (st.models.map (fun p => p.1)).Nodup →
      (∀ o ∈ st.objects, ∃ p ∈ st.models, o ∈ p.2.entities) →
      ∃ stf, keys.foldl (fun acc k => acc.bind (fun s => destroyF (fuel + 1) s (.str k)))
          (some st) = some stf ∧
        stf.models = [] ∧ stf.objects = [] ∧ stf.annotations = st.annotations ∧
        stf.lights = st.lights ∧ stf.clips = st.clips := by
  intro keys
  induction keys with
  | nil =>
    intro st _ _ hcov _ hown
    refine ⟨st, rfl, ?_, ?_, rfl, rfl, rfl⟩
    · rw [List.eq_nil_iff_forall_not_mem]
      intro p hp
      exact absurd (hcov p hp) (List.not_mem_nil _)
    · rw [List.eq_nil_iff_forall_not_mem]
      intro o ho
      obtain ⟨p, hp, _⟩ := hown o ho
      exact absurd (hcov p hp) (List.not_mem_nil _)
  | cons k keys ih =>
    intro st hnd hks hcov hmnd hown
    obtain ⟨hk1, hk2, hk3, hk4, hk5⟩ := hks k (List.mem_cons_self _ _)
    have hnd' := List.nodup_cons.mp hnd
    rw [List.foldl_cons]
    rw [show ((some st).bind (fun s => destroyF (fuel + 1) s (.str k)))
      = destroyF (fuel + 1) st (.str k) from rfl]
    rw [destroyF_model_branch fuel st k hk2 hk3 hk4 hk5 hk1]
    have hmodels1 : (destroyModelState st k).models = removeA st.models k :=
      destroyModelState_models st k
    have hks1 : ∀ k' ∈ keys, (lookupA (destroyModelState st k).models k').isSome ∧ k' ≠ "" ∧
        lookupA (destroyModelState st k).annotations k' = none ∧
        lookupA (destroyModelState st k).lights k' = none ∧
        k' ∉ (destroyModelState st k).clips := by
      intro k' hk'
      obtain ⟨a1, a2, a3, a4, a5⟩ := hks k' (List.mem_cons_of_mem _ hk')
      have hkk' : k' ≠ k := fun hh => hnd'.1 (hh ▸ hk')
      refine ⟨?_, a2, ?_, ?_, ?_⟩
      · rw [hmodels1, lookupA_removeA_ne _ hkk']
        exact a1
      · rw [destroyModelState_annotations]
        exact a3
      · rw [destroyModelState_lights]
        exact a4
      · rw [destroyModelState_clips]
        exact a5
    have hcov1 : ∀ p ∈ (destroyModelState st k).models, p.1 ∈ keys := by
      intro p hp
      rw [hmodels1] at hp
      have hpm : p ∈ st.models := List.mem_of_mem_filter hp
      have hpk : p.1 ≠ k := by
        have := (List.mem_filter.mp hp).2
        simpa using this
      rcases List.mem_cons.mp (hcov p hpm) with hh | hh
      · exact absurd hh hpk
      · exact hh
    have hmnd1 : ((destroyModelState st k).models.map (fun p => p.1)).Nodup := by
      rw [hmodels1]
      exact List.Nodup.sublist (List.Sublist.map _ (List.filter_sublist _)) hmnd
    have hown1 : ∀ o ∈ (destroyModelState st k).objects,
        ∃ p ∈ (destroyModelState st k).models, o ∈ p.2.entities := by
      intro o ho
      obtain ⟨hos, hne2⟩ := destroyModelState_objects_sub st k o ho
      obtain ⟨p, hp, hpe⟩ := hown o hos
      have hlook : lookupA st.models p.1 = some p.2 :=
        lookupA_of_mem_nodup hmnd (by rw [Prod.mk.eta]; exact hp)
      have hpk : p.1 ≠ k := by
        intro hh
        apply hne2
        rw [hh] at hlook
        rw [hlook]
        exact hpe
      refine ⟨p, ?_, hpe⟩
      rw [hmodels1]
      exact List.mem_filter.mpr ⟨hp, by simp [hpk]⟩
    obtain ⟨stf, hfold, hM, hO, hA, hL, hC⟩ :=
      ih (destroyModelState st k) hnd'.2 hks1 hcov1 hmnd1 hown1
    refine ⟨stf, hfold, hM, hO, ?_, ?_, ?_⟩
    · rw [hA, destroyModelState_annotations]
    · rw [hL, destroyModelState_lights]
    · rw [hC, destroyModelState_clips]

theorem destroyClipState_fields (fuel : Nat) (st : VState) (id : String) :
    (destroyClipState fuel st id).clips = st.clips.filter (fun x => decide (x ≠ id)) ∧
    (destroyClipState fuel st id).annotations = st.annotations ∧
    (destroyClipState fuel st id).objects = st.objects ∧
    (destroyClipState fuel st id).models = st.models ∧
    (destroyClipState fuel st id).lights = st.lights := by
  refine ⟨?_, ?_, ?_, ?_, ?_⟩
  · show (setVisibleF fuel st (.str id) false).clips.filter (fun x => decide (x ≠ id))
      = st.clips.filter (fun x => decide (x ≠ id))
    rw [setVisibleF_clips]
  · show (setVisibleF fuel st (.str id) false).annotations = st.annotations
    rw [setVisibleF_annotations]
  · show (setVisibleF fuel st (.str id) false).objects = st.objects
    rw [setVisibleF_objects]
  · show (setVisibleF fuel st (.str id) false).models = st.models
    rw [setVisibleF_models]
  · show (setVisibleF fuel st (.str id) false).lights = st.lights
    rw [setVisibleF_lights]

theorem destroyLightState_fields (fuel : Nat) (st : VState) (id : String) :
    (destroyLightState fuel st id).lights = removeA st.lights id ∧
    (destroyLightState fuel st id).annotations = st.annotations ∧
    (destroyLightState fuel st id).objects = st.objects ∧
    (destroyLightState fuel st id).models = st.models ∧
    (destroyLightState fuel st id).clips = st.clips := by
  refine ⟨?_, ?_, ?_, ?_, ?_⟩
  · show removeA (setVisibleF fuel st (.str id) false).lights id = removeA st.lights id
    rw [setVisibleF_lights]
  · show (setVisibleF fuel st (.str id) false).annotations = st.annotations
    rw [setVisibleF_annotations]
  · show (setVisibleF fuel st (.str id) false).objects = st.objects
    rw [setVisibleF_objects]
  · show (setVisibleF fuel st (.str id) false).models = st.models
    rw [setVisibleF_models]
  · show (setVisibleF fuel st (.str id) false).clips = st.clips
    rw [setVisibleF_clips]

theorem clear_ann_stage (fuel : Nat) :
    ∀ (keys : List String) (st : VState),
      keys.Nodup →
      (∀ k ∈ keys, (lookupA st.annotations k).isSome ∧ k ≠ "") →
      (∀ p ∈ st.annotations, p.1 ∈ keys) →
      ∃ stf, keys.foldl (fun acc k => acc.bind (fun s => destroyF (fuel + 1) s (.str k)))
          (some st) = some stf ∧
        stf.annotations = [] ∧ stf.objects = st.objects ∧ stf.models = st.models ∧
        stf.lights = st.lights ∧ stf.clips = st.clips := by
  intro keys
  induction keys with
  | nil =>
    intro st _ _ hcov
    refine ⟨st, rfl, ?_, rfl, rfl, rfl, rfl⟩
    rw [List.eq_nil_iff_forall_not_mem]
    intro p hp
    exact absurd (hcov p hp) (List.not_mem_nil _)
  | cons k keys ih =>
    intro st hnd hks hcov
    obtain ⟨hk1, hk2⟩ := hks k (List.mem_cons_self _ _)
    have hnd' := List.nodup_cons.mp hnd
    rw [List.foldl_cons]
    rw [show ((some st).bind (fun s => destroyF (fuel + 1) s (.str k)))
      = destroyF (fuel + 1) st (.str k) from rfl]
    rw [destroyF_ann_branch fuel st k hk2 hk1]
    obtain ⟨f1, f2, f3, f4⟩ := destroyAnnotationState_fields st k
    have fobj := destroyAnnotationState_objects st k
    have hks1 : ∀ k' ∈ keys, (lookupA (destroyAnnotationState st k).annotations k').isSome ∧
        k' ≠ "" := by
      intro k' hk'
      obtain ⟨a1, a2⟩ := hks k' (List.mem_cons_of_mem _ hk')
      have hkk' : k' ≠ k := fun hh => hnd'.1 (hh ▸ hk')
      refine ⟨?_, a2⟩
      rw [f1, lookupA_removeA_ne _ hkk']
      exact a1
    have hcov1 : ∀ p ∈ (destroyAnnotationState st k).annotations, p.1 ∈ keys := by
      intro p hp
      rw [f1] at hp
      have hpm : p ∈ st.annotations := List.mem_of_mem_filter hp
      have hpk : p.1 ≠ k := by
        have := (List.mem_filter.mp hp).2
        simpa using this
      rcases List.mem_cons.mp (hcov p hpm) with hh | hh
      · exact absurd hh hpk
      · exact hh
    obtain ⟨stf, hfold, hA, hO, hM, hL, hC⟩ :=
      ih (destroyAnnotationState st k) hnd'.2 hks1 hcov1
    refine ⟨stf, hfold, hA, ?_, ?_, ?_, ?_⟩
    · rw [hO, fobj]
    · rw [hM, f4]
    · rw [hL, f2]
    · rw [hC, f3]

theorem clear_clip_stage (fuel : Nat) :
    ∀ (keys : List String) (st : VState),
      keys.Nodup →
      st.annotations = [] →
      (∀ k ∈ keys, k ∈ st.clips ∧ k ≠ "" ∧ lookupA st.lights k = none) →
      (∀ c ∈ st.clips, c ∈ keys) →
      ∃ stf, keys.foldl (fun acc k => acc.bind (fun s => destroyF (fuel + 1) s (.str k)))
          (some st) = some stf ∧
        stf.clips = [] ∧ stf.annotations = [] ∧ stf.objects = st.objects ∧
        stf.models = st.models ∧ stf.lights = st.lights := by
  intro keys
  induction keys with
  | nil =>
    intro st _ hann _ hcov
    refine ⟨st, rfl, ?_, hann, rfl, rfl, rfl⟩
    rw [List.eq_nil_iff_forall_not_mem]
    intro c hc
    exact absurd (hcov c hc) (List.not_mem_nil _)
  | cons k keys ih =>
    intro st hnd hann hks hcov
    obtain ⟨hk1, hk2, hk3⟩ := hks k (List.mem_cons_self _ _)
    have hnd' := List.nodup_cons.mp hnd
    have hannk : lookupA st.annotations k = none := by rw [hann]; rfl
    rw [List.foldl_cons]
    rw [show ((some st).bind (fun s => destroyF (fuel + 1) s (.str k)))
      = destroyF (fuel + 1) st (.str k) from rfl]
    rw [destroyF_clip_branch fuel st k hk2 hannk hk3 hk1]
    obtain ⟨f1, f2, f3, f4, f5⟩ := destroyClipState_fields fuel st k
    have hann1 : (destroyClipState fuel st k).annotations = [] := by rw [f2, hann]
    have hks1 : ∀ k' ∈ keys, k' ∈ (destroyClipState fuel st k).clips ∧ k' ≠ "" ∧
        lookupA (destroyClipState fuel st k).lights k' = none := by
      intro k' hk'
      obtain ⟨a1, a2, a3⟩ := hks k' (List.mem_cons_of_mem _ hk')
      have hkk' : k' ≠ k := fun hh => hnd'.1 (hh ▸ hk')
      refine ⟨?_, a2, ?_⟩
      · rw [f1]
        exact List.mem_filter.mpr ⟨a1, by simp [hkk']⟩
      · rw [f5]
        exact a3
    have hcov1 : ∀ c ∈ (destroyClipState fuel st k).clips, c ∈ keys := by
      intro c hc
      rw [f1] at hc
      have hcm : c ∈ st.clips := List.mem_of_mem_filter hc
      have hck : c ≠ k := by
        have := (List.mem_filter.mp hc).2
        simpa using this
      rcases List.mem_cons.mp (hcov c hcm) with hh | hh
      · exact absurd hh hck
      · exact hh
    obtain ⟨stf, hfold, hC, hA, hO, hM, hL⟩ :=
      ih (destroyClipState fuel st k) hnd'.2 hann1 hks1 hcov1
    refine ⟨stf, hfold, hC, hA, ?_, ?_, ?_⟩
    · rw [hO, f3]
    · rw [hM, f4]
    · rw [hL, f5]

theorem clear_light_stage (fuel : Nat) :
    ∀ (keys : List String) (st : VState),
      keys.Nodup →
      st.annotations = [] →
      (∀ k ∈ keys, (lookupA st.lights k).isSome ∧ k ≠ "") →
      (∀ p ∈ st.lights, p.1 ∈ keys) →
      ∃ stf, keys.foldl (fun acc k => acc.bind (fun s => destroyF (fuel + 1) s (.str k)))
          (some st) = some stf ∧
        stf.lights = [] ∧ stf.annotations = [] ∧ stf.objects = st.objects ∧
        stf.models = st.models ∧ stf.clips = st.clips := by
  intro keys
  induction keys with
  | nil =>
    intro st _ hann _ hcov
    refine ⟨st, rfl, ?_, hann, rfl, rfl, rfl⟩
    rw [List.eq_nil_iff_forall_not_mem]
    intro p hp
    exact absurd (hcov p hp) (List.not_mem_nil _)
  | cons k keys ih =>
    intro st hnd hann hks hcov
    obtain ⟨hk1, hk2⟩ := hks k (List.mem_cons_self _ _)
    have hnd' := List.nodup_cons.mp hnd
    have hannk : lookupA st.annotations k = none := by rw [hann]; rfl
    rw [List.foldl_cons]
    rw [show ((some st).bind (fun s => destroyF (fuel + 1) s (.str k)))
      = destroyF (fuel + 1) st (.str k) from rfl]
    rw [destroyF_light_branch fuel st k hk2 hannk hk1]
    obtain ⟨f1, f2, f3, f4, f5⟩ := destroyLightState_fields fuel st k
    have hann1 : (destroyLightState fuel st k).annotations = [] := by rw [f2, hann]
    have hks1 : ∀ k' ∈ keys, (lookupA (destroyLightState fuel st k).lights k').isSome ∧
        k' ≠ "" := by
      intro k' hk'
      obtain ⟨a1, a2⟩ := hks k' (List.mem_cons_of_mem _ hk')
      have hkk' : k' ≠ k := fun hh => hnd'.1 (hh ▸ hk')
      refine ⟨?_, a2⟩
      rw [f1, lookupA_removeA_ne _ hkk']
      exact a1
    have hcov1 : ∀ p ∈ (destroyLightState fuel st k).lights, p.1 ∈ keys := by
      intro p hp
      rw [f1] at hp
      have hpm : p ∈ st.lights := List.mem_of_mem_filter hp
      have hpk : p.1 ≠ k := by
        have := (List.mem_filter.mp hp).2
        simpa using this
      rcases List.mem_cons.mp (hcov p hpm) with hh | hh
      · exact absurd hh hpk
      · exact hh
    obtain ⟨stf, hfold, hL, hA, hO, hM, hC⟩ :=
      ih (destroyLightState fuel st k) hnd'.2 hann1 hks1 hcov1
    refine ⟨stf, hfold, hL, hA, ?_, ?_, ?_⟩
    · rw [hO, f3]
    · rw [hM, f4]
    · rw [hC, f5]

/-- Configuration accepted by `createLight` (viewer.js lines 2902-2950);
absent fields are `none`, `shown` is falsy when not given. -/
structure LightCfg where
  ltype : Option String
  color : Option Vec3
  intensity : Option ℚ
  dir : Option Vec3
  pos : Option Vec3
  space : Option String
  shown : Bool
deriving DecidableEq, Repr

/-- The light record built by `createLight`'s type dispatch
(`var type = cfg.type || "dir"`, then ambient / point / default-dir,
viewer.js lines 2911-2941). -/
def lightRecOf (cfg : LightCfg) : LightRec :=
  let ty := match cfg.ltype with
    | none => "dir"
    | some s => if s = "" then "dir" else s
  if ty = "ambient" then ⟨"ambient", cfg.color, cfg.intensity, none, none, none⟩
  else if ty = "point" then ⟨"point", cfg.color, cfg.intensity, none, cfg.pos, cfg.space⟩
  else ⟨"dir", cfg.color, cfg.intensity, cfg.dir, none, cfg.space⟩

/-- State effect of `createLight` (viewer.js lines 2902-2950): a
colliding ID (any existing scene component: light, clip, object or
model) is a logged no-op; otherwise the light registers and the trailing
`show`/`hide` call takes `setVisible`'s light branch (the ID is now a
light and, by the collision check, not an object), which only writes a
helper's visibility flag when a helper exists. -/
def createLightState (st : VState) (id : String) (cfg : LightCfg) : VState :=
  if (lookupA st.lights id).isSome ∨ id ∈ st.clips ∨ id ∈ st.objects ∨
      (lookupA st.models id).isSome then st
  else
    let st1 := { st with lights := updateA st.lights id (lightRecOf cfg) }
    match lookupA st1.lightHelpers id with
    | some _ => { st1 with lightHelpers := updateA st1.lightHelpers id cfg.shown }
    | none => st1

/-- The `light0` configuration of `defaultLights` (viewer.js 2978-2982). -/
def light0Cfg : LightCfg := ⟨some "ambient", some ⟨1, 1, 1⟩, some 1, none, none, none, false⟩

/-- The `light1` configuration of `defaultLights` (viewer.js 2983-2989). -/
def light1Cfg : LightCfg :=
  ⟨some "dir", some ⟨1, 1, 1⟩, some 1, some ⟨4/5, -3/5, -4/5⟩, none, some "view", false⟩

/-- The `light2` configuration of `defaultLights` (viewer.js 2990-2996). -/
def light2Cfg : LightCfg :=
  ⟨some "dir", some ⟨4/5, 4/5, 4/5⟩, some 1, some ⟨-4/5, -3/10, -2/5⟩, none, some "view", false⟩

/-- The `light3` configuration of `defaultLights` (viewer.js 2997-3003). -/
def light3Cfg : LightCfg :=
  ⟨some "dir", some ⟨4/5, 1, 1⟩, some 1, some ⟨2/5, -2/5, 4/5⟩, none, some "view", false⟩

/-- The light registry produced by `defaultLights` on an empty scene. -/
def defaultLightsList : List (String × LightRec) :=
  [("light0", lightRecOf light0Cfg), ("light1", lightRecOf light1Cfg),
   ("light2", lightRecOf light2Cfg), ("light3", lightRecOf light3Cfg)]

/-- State effect of `defaultLights` (viewer.js lines 2976-3005):
`destroyLights()` then the four `createLight` calls. -/
def defaultLightsF (fuel : Nat) (st : VState) : Option VState :=
  (destroyF fuel st (.arr (st.lights.map (fun p => p.1)))).map (fun s1 =>
    createLightState (createLightState (createLightState (createLightState s1
      "light0" light0Cfg) "light1" light1Cfg) "light2" light2Cfg) "light3" light3Cfg)

/-- State effect of `clear` (viewer.js lines 416-425): destroy every
model, then `destroyAnnotations()`, `destroyClips()`, `destroyLights()`
(each of which calls `destroy` on the respective key list). -/
def clearF (fuel : Nat) (st : VState) : Option VState :=
  ((st.models.map (fun p => p.1)).foldl
    (fun acc k => acc.bind (fun s => destroyF fuel s (.str k))) (some st)).bind (fun s1 =>
  (destroyF fuel s1 (.arr (s1.annotations.map (fun p => p.1)))).bind (fun s2 =>
  (destroyF fuel s2 (.arr s2.clips)).bind (fun s3 =>
  destroyF fuel s3 (.arr (s3.lights.map (fun p => p.1))))))

/-- A serialized model entry of a bookmark (`id`, `src` and the optional
transform overrides consumed by `loadModels`, viewer.js 3729-3748). -/
structure BMModel where
  mid : String
  src : String
  translate : Option Vec3
  scale : Option Vec3
  rotate : Option Vec3
deriving DecidableEq, Repr

/-- The part of a bookmark document that `setBookmark`'s guard inspects:
its `models` field (absent or a list). -/
structure Bookmark where
  models : Option (List BMModel)
deriving DecidableEq, Repr

/-- Synchronous prefix of `setBookmark` (viewer.js lines 3750-3760):
`this.clear()`, then, when the document has no models, `defaultLights()`
and the immediate `ok()` callback; otherwise the model loads are issued
asynchronously.  Result: the state after the synchronous work, the list
of model entries handed to `loadModels` (empty on the no-model path) and
whether `ok` has already been invoked. -/
def setBookmarkF (fuel : Nat) (st : VState) (bm : Bookmark) :
    Option (VState × List BMModel × Bool) :=
  (clearF fuel st).bind (fun s1 =>
    match bm.models with
    | none => (defaultLightsF fuel s1).map (fun s2 => (s2, [], true))
    | some [] => (defaultLightsF fuel s1).map (fun s2 => (s2, [], true))
    | some ms => some (s1, ms, false))

/-- Registry well-formedness used by the `clear` path: unique non-empty
keys per kind, model IDs not shadowing annotations/lights/clips, every
object owned by a loaded model, and clip IDs not shadowing lights. -/
def wfClear (st : VState) : Prop :=
  (st.models.map (fun p => p.1)).Nodup ∧
  (∀ p ∈ st.models, p.1 ≠ "" ∧ lookupA st.annotations p.1 = none ∧
    lookupA st.lights p.1 = none ∧ p.1 ∉ st.clips) ∧
  (∀ o ∈ st.objects, ∃ p ∈ st.models, o ∈ p.2.entities) ∧
  (st.annotations.map (fun p => p.1)).Nodup ∧
  (∀ p ∈ st.annotations, p.1 ≠ "") ∧
  st.clips.Nodup ∧
  (∀ c ∈ st.clips, c ≠ "" ∧ lookupA st.lights c = none) ∧
  (st.lights.map (fun p => p.1)).Nodup ∧
  (∀ p ∈ st.lights, p.1 ≠ "")

instance wfClearDecidable (st : VState) : Decidable (wfClear st) := by
  unfold wfClear
  infer_instance

theorem createLightState_fields (st : VState) (id : String) (cfg : LightCfg)
    (hfree : ¬((lookupA st.lights id).isSome ∨ id ∈ st.clips ∨ id ∈ st.objects ∨
      (lookupA st.models id).isSome)) :
    (createLightState st id cfg).lights = updateA st.lights id (lightRecOf cfg) ∧
    (createLightState st id cfg).objects = st.objects ∧
    (createLightState st id cfg).models = st.models ∧
    (createLightState st id cfg).annotations = st.annotations ∧
    (createLightState st id cfg).clips = st.clips := by
  cases hlh : lookupA st.lightHelpers id with
  | none => simp [createLightState, hfree, hlh]
  | some w => simp [createLightState, hfree, hlh]

theorem clearF_spec (fuel : Nat) (st : VState) (hwf : wfClear st) :
    ∃ stf, clearF (fuel + 2) st = some stf ∧
      stf.models = [] ∧ stf.objects = [] ∧ stf.annotations = [] ∧
      stf.clips = [] ∧ stf.lights = [] := by
  obtain ⟨hmnd, hmprops, hown, hannnd, hannne, hclnd, hclprops, hlnd, hlne⟩ := hwf
  have hks : ∀ k ∈ st.models.map (fun p => p.1), (lookupA st.models k).isSome ∧ k ≠ "" ∧
      lookupA st.annotations k = none ∧ lookupA st.lights k = none ∧ k ∉ st.clips := by
    intro k hk
    obtain ⟨p, hp, hpk⟩ := List.mem_map.mp hk
    obtain ⟨b1, b2, b3, b4⟩ := hmprops p hp
    subst hpk
    have hl : lookupA st.models p.1 = some p.2 :=
      lookupA_of_mem_nodup hmnd (by rw [Prod.mk.eta]; exact hp)
    exact ⟨by rw [hl]; rfl, b1, b2, b3, b4⟩
  obtain ⟨s1, hf1, m1, o1, a1, l1, c1⟩ := clear_models_stage (fuel + 1)
    (st.models.map (fun p => p.1)) st hmnd hks
    (fun p hp => List.mem_map.mpr ⟨p, hp, rfl⟩) hmnd hown
  have hnd2 : (s1.annotations.map (fun p => p.1)).Nodup := by rw [a1]; exact hannnd
  have hks2 : ∀ k ∈ s1.annotations.map (fun p => p.1),
      (lookupA s1.annotations k).isSome ∧ k ≠ "" := by
    intro k hk
    obtain ⟨p, hp, hpk⟩ := List.mem_map.mp hk
    subst hpk
    have hl : lookupA s1.annotations p.1 = some p.2 :=
      lookupA_of_mem_nodup hnd2 (by rw [Prod.mk.eta]; exact hp)
    refine ⟨by rw [hl]; rfl, ?_⟩
    rw [a1] at hp
    exact hannne p hp
  obtain ⟨s2, hf2, A2, O2, M2, L2, C2⟩ := clear_ann_stage fuel
    (s1.annotations.map (fun p => p.1)) s1 hnd2 hks2
    (fun p hp => List.mem_map.mpr ⟨p, hp, rfl⟩)
  have hclips2 : s2.clips = st.clips := by rw [C2, c1]
  have hlights2 : s2.lights = st.lights := by rw [L2, l1]
  have hks3 : ∀ k ∈ s2.clips, k ∈ s2.clips ∧ k ≠ "" ∧ lookupA s2.lights k = none := by
    intro k hk
    have hk' : k ∈ st.clips := by rw [← hclips2]; exact hk
    obtain ⟨b1, b2⟩ := hclprops k hk'
    exact ⟨hk, b1, by rw [hlights2]; exact b2⟩
  obtain ⟨s3, hf3, C3, A3, O3, M3, L3⟩ := clear_clip_stage fuel s2.clips s2
    (by rw [hclips2]; exact hclnd) A2 hks3 (fun c hc => hc)
  have hlights3 : s3.lights = st.lights := by rw [L3, hlights2]
  have hnd4 : (s3.lights.map (fun p => p.1)).Nodup := by rw [hlights3]; exact hlnd
  have hks4 : ∀ k ∈ s3.lights.map (fun p => p.1),
      (lookupA s3.lights k).isSome ∧ k ≠ "" := by
    intro k hk
    obtain ⟨p, hp, hpk⟩ := List.mem_map.mp hk
    subst hpk
    have hl : lookupA s3.lights p.1 = some p.2 :=
      lookupA_of_mem_nodup hnd4 (by rw [Prod.mk.eta]; exact hp)
    refine ⟨by rw [hl]; rfl, ?_⟩
    rw [hlights3] at hp
    exact hlne p hp
  obtain ⟨s4, hf4, L4, A4, O4, M4, C4⟩ := clear_light_stage fuel
    (s3.lights.map (fun p => p.1)) s3 hnd4 A3 hks4
    (fun p hp => List.mem_map.mpr ⟨p, hp, rfl⟩)
  refine ⟨s4, ?_, ?_, ?_, A4, ?_, L4⟩
  · have hf1' : (st.models.map (fun p => p.1)).foldl
        (fun acc k => acc.bind (fun s => destroyF (fuel + 2) s (.str k))) (some st)
        = some s1 := hf1
    show ((st.models.map (fun p => p.1)).foldl
        (fun acc k => acc.bind (fun s => destroyF (fuel + 2) s (.str k))) (some st)).bind
      (fun t1 => (destroyF (fuel + 2) t1 (.arr (t1.annotations.map (fun p => p.1)))).bind
      (fun t2 => (destroyF (fuel + 2) t2 (.arr t2.clips)).bind
      (fun t3 => destroyF (fuel + 2) t3 (.arr (t3.lights.map (fun p => p.1))))))
      = some s4
    rw [hf1']
    have harr1 : destroyF (fuel + 2) s1 (.arr (s1.annotations.map (fun p => p.1)))
        = some s2 := hf2
    show (destroyF (fuel + 2) s1 (.arr (s1.annotations.map (fun p => p.1)))).bind
      (fun t2 => (destroyF (fuel + 2) t2 (.arr t2.clips)).bind
      (fun t3 => destroyF (fuel + 2) t3 (.arr (t3.lights.map (fun p => p.1))))) = some s4
    rw [harr1]
    have harr2 : destroyF (fuel + 2) s2 (.arr s2.clips) = some s3 := hf3
    show (destroyF (fuel + 2) s2 (.arr s2.clips)).bind
      (fun t3 => destroyF (fuel + 2) t3 (.arr (t3.lights.map (fun p => p.1)))) = some s4
    rw [harr2]
    show destroyF (fuel + 2) s3 (.arr (s3.lights.map (fun p => p.1))) = some s4
    exact hf4
  · rw [M4, M3, M2, m1]
  · rw [O4, O3, O2, o1]
  · rw [C4, C3]

theorem defaultLightsF_spec (fuel : Nat) (s : VState)
    (hl : s.lights = []) (hc : s.clips = []) (ho : s.objects = [])
    (hm : s.models = []) :
    ∃ s2, defaultLightsF (fuel + 1) s = some s2 ∧
      s2.lights = defaultLightsList ∧ s2.models = s.models ∧
      s2.objects = s.objects ∧ s2.annotations = s.annotations ∧
      s2.clips = s.clips := by
  have hfree0 : ¬((lookupA s.lights "light0").isSome ∨ "light0" ∈ s.clips ∨
      "light0" ∈ s.objects ∨ (lookupA s.models "light0").isSome) := by
    rw [hl, hc, ho, hm]
    decide
  obtain ⟨L0, O0, M0, A0, K0⟩ := createLightState_fields s "light0" light0Cfg hfree0
  have e0 : updateA ([] : List (String × LightRec)) "light0" (lightRecOf light0Cfg)
      = [("light0", lightRecOf light0Cfg)] := rfl
  have hL0 : (createLightState s "light0" light0Cfg).lights
      = [("light0", lightRecOf light0Cfg)] := by rw [L0, hl, e0]
  have hfree1 : ¬((lookupA (createLightState s "light0" light0Cfg).lights "light1").isSome ∨
      "light1" ∈ (createLightState s "light0" light0Cfg).clips ∨
      "light1" ∈ (createLightState s "light0" light0Cfg).objects ∨
      (lookupA (createLightState s "light0" light0Cfg).models "light1").isSome) := by
    rw [hL0, K0, hc, O0, ho, M0, hm]
    decide
  obtain ⟨L1, O1, M1, A1, K1⟩ := createLightState_fields
    (createLightState s "light0" light0Cfg) "light1" light1Cfg hfree1
  have e1 : updateA [("light0", lightRecOf light0Cfg)] "light1" (lightRecOf light1Cfg)
      = [("light0", lightRecOf light0Cfg), ("light1", lightRecOf light1Cfg)] := rfl
  have hL1 : (createLightState (createLightState s "light0" light0Cfg)
      "light1" light1Cfg).lights
      = [("light0", lightRecOf light0Cfg), ("light1", lightRecOf light1Cfg)] := by
    rw [L1, hL0, e1]
  have hK1 : (createLightState (createLightState s "light0" light0Cfg)
      "light1" light1Cfg).clips = s.clips := by rw [K1, K0]
  have hO1 : (createLightState (createLightState s "light0" light0Cfg)
      "light1" light1Cfg).objects = s.objects := by rw [O1, O0]
  have hM1 : (createLightState (createLightState s "light0" light0Cfg)
      "light1" light1Cfg).models = s.models := by rw [M1, M0]
  have hfree2 : ¬((lookupA (createLightState (createLightState s "light0" light0Cfg)
        "light1" light1Cfg).lights "light2").isSome ∨
      "light2" ∈ (createLightState (createLightState s "light0" light0Cfg)
        "light1" light1Cfg).clips ∨
      "light2" ∈ (createLightState (createLightState s "light0" light0Cfg)
        "light1" light1Cfg).objects ∨
      (lookupA (createLightState (createLightState s "light0" light0Cfg)
        "light1" light1Cfg).models "light2").isSome) := by
    rw [hL1, hK1, hc, hO1, ho, hM1, hm]
    decide
  obtain ⟨L2, O2, M2, A2, K2⟩ := createLightState_fields
    (createLightState (createLightState s "light0" light0Cfg) "light1" light1Cfg)
    "light2" light2Cfg hfree2
  have e2 : updateA [("light0", lightRecOf light0Cfg), ("light1", lightRecOf light1Cfg)]
      "light2" (lightRecOf light2Cfg)
      = [("light0", lightRecOf light0Cfg), ("light1", lightRecOf light1Cfg),
         ("light2", lightRecOf light2Cfg)] := rfl
  have hL2 : (createLightState (createLightState (createLightState s "light0" light0Cfg)
      "light1" light1Cfg) "light2" light2Cfg).lights
      = [("light0", lightRecOf light0Cfg), ("light1", lightRecOf light1Cfg),
         ("light2", lightRecOf light2Cfg)] := by
    rw [L2, hL1, e2]
  have hK2 : (createLightState (createLightState (createLightState s "light0" light0Cfg)
      "light1" light1Cfg) "light2" light2Cfg).clips = s.clips := by rw [K2, hK1]
  have hO2 : (createLightState (createLightState (createLightState s "light0" light0Cfg)
      "light1" light1Cfg) "light2" light2Cfg).objects = s.objects := by rw [O2, hO1]
  have hM2 : (createLightState (createLightState (createLightState s "light0" light0Cfg)
      "light1" light1Cfg) "light2" light2Cfg).models = s.models := by rw [M2, hM1]
  have hfree3 : ¬((lookupA (createLightState (createLightState (createLightState s
        "light0" light0Cfg) "light1" light1Cfg) "light2" light2Cfg).lights "light3").isSome ∨
      "light3" ∈ (createLightState (createLightState (createLightState s
        "light0" light0Cfg) "light1" light1Cfg) "light2" light2Cfg).clips ∨
      "light3" ∈ (createLightState (createLightState (createLightState s
        "light0" light0Cfg) "light1" light1Cfg) "light2" light2Cfg).objects ∨
      (lookupA (createLightState (createLightState (createLightState s
        "light0" light0Cfg) "light1" light1Cfg) "light2" light2Cfg).models
        "light3").isSome) := by
    rw [hL2, hK2, hc, hO2, ho, hM2, hm]
    decide
  obtain ⟨L3, O3, M3, A3, K3⟩ := createLightState_fields
    (createLightState (createLightState (createLightState s "light0" light0Cfg)
      "light1" light1Cfg) "light2" light2Cfg) "light3" light3Cfg hfree3
  have e3 : updateA [("light0", lightRecOf light0Cfg), ("light1", lightRecOf light1Cfg),
      ("light2", lightRecOf light2Cfg)] "light3" (lightRecOf light3Cfg)
      = defaultLightsList := rfl
  have hL3 : (createLightState (createLightState (createLightState (createLightState s
      "light0" light0Cfg) "light1" light1Cfg) "light2" light2Cfg)
      "light3" light3Cfg).lights = defaultLightsList := by
    rw [L3, hL2, e3]
  have hK3 : (createLightState (createLightState (createLightState (createLightState s
      "light0" light0Cfg) "light1" light1Cfg) "light2" light2Cfg)
      "light3" light3Cfg).clips = s.clips := by rw [K3, hK2]
  have hO3 : (createLightState (createLightState (createLightState (createLightState s
      "light0" light0Cfg) "light1" light1Cfg) "light2" light2Cfg)
      "light3" light3Cfg).objects = s.objects := by rw [O3, hO2]
  have hM3 : (createLightState (createLightState (createLightState (createLightState s
      "light0" light0Cfg) "light1" light1Cfg) "light2" light2Cfg)
      "light3" light3Cfg).models = s.models := by rw [M3, hM2]
  have hA3 : (createLightState (createLightState (createLightState (createLightState s
      "light0" light0Cfg) "light1" light1Cfg) "light2" light2Cfg)
      "light3" light3Cfg).annotations = s.annotations := by rw [A3, A2, A1, A0]
  refine ⟨createLightState (createLightState (createLightState (createLightState s
    "light0" light0Cfg) "light1" light1Cfg) "light2" light2Cfg) "light3" light3Cfg,
    ?_, hL3, hM3, hO3, hA3, hK3⟩
  show (destroyF (fuel + 1) s (.arr (s.lights.map (fun p => p.1)))).map
      (fun t => createLightState (createLightState (createLightState (createLightState t
        "light0" light0Cfg) "light1" light1Cfg) "light2" light2Cfg) "light3" light3Cfg)
    = some (createLightState (createLightState (createLightState (createLightState s
        "light0" light0Cfg) "light1" light1Cfg) "light2" light2Cfg) "light3" light3Cfg)
  rw [hl]
  rfl

/-- C8: for every bookmark document whose `models` field is absent or an
empty list, `setBookmark` first clears all live state — destroying every
model (and with it every object), annotation, clip and light — then
installs the four default lights, and invokes the completion callback
immediately with no model entries handed to `loadModels` (so no models
are loaded and no object-level directives are applied). -/
theorem claim8_empty_bookmark_installs_defaults (st : VState) (bm : Bookmark) (fuel : Nat)
    (hwf : wfClear st) (hbm : bm.models = none ∨ bm.models = some []) :
    ∃ stf, setBookmarkF (fuel + 2) st bm = some (stf, [], true) ∧
      stf.lights = defaultLightsList ∧ stf.models = [] ∧ stf.objects = [] ∧
      stf.annotations = [] ∧ stf.clips = [] := by
  obtain ⟨s1, hclear, hm1, ho1, ha1, hc1, hl1⟩ := clearF_spec fuel st hwf
  obtain ⟨s2, hdl, hL, hM, hO, hA, hK⟩ := defaultLightsF_spec (fuel + 1) s1 hl1 hc1 ho1 hm1
  have hdl' : defaultLightsF (fuel + 2) s1 = some s2 := hdl
  refine ⟨s2, ?_, hL, by rw [hM, hm1], by rw [hO, ho1], by rw [hA, ha1], by rw [hK, hc1]⟩
  cases hbm with
  | inl h => simp only [setBookmarkF, h, hclear, Option.bind, hdl', Option.map]
  | inr h => simp only [setBookmarkF, h, hclear, Option.bind, hdl', Option.map]

/-- Witness state for claim C8: a model `"m"` owning object `"a"`, an
annotation `"n"`, a clip `"c"` and a light `"L"` all live. -/
def c8State : VState where
  objects := ["a"]
  objectTypes := []
  objectVisible := []
  types := [("DEFAULT", ["a"])]
  models := [("m", ⟨["a"], none⟩)]
  modelSrcs := [("m", "m.gltf")]
  objectModels := [("a", "m")]
  annotations := [("n", some "a")]
  objectAnnotations := [("a", ["n"])]
  lights := [("L", lightRecOf light0Cfg)]
  lightHelpers := []
  clips := ["c"]
  clipHelpers := []
  eulerAngles := []
  translations := []
  rotations := []
  scales := []
  transformable := []
  pivotOffsets := []
  components := []
  sceneAabb := ⟨0, 0, 0, 0, 0, 0⟩

theorem claim8_witness :
    (wfClear c8State ∧
      ((Bookmark.mk none).models = none ∨ (Bookmark.mk none).models = some [])) ∧
    ∃ stf, setBookmarkF 3 c8State (Bookmark.mk none) = some (stf, [], true) ∧
      stf.lights = defaultLightsList ∧ stf.models = [] ∧ stf.objects = [] ∧
      stf.annotations = [] ∧ stf.clips = [] :=
  ⟨⟨by decide, Or.inl rfl⟩,
   claim8_empty_bookmark_installs_defaults c8State (Bookmark.mk none) 1
     (by decide) (Or.inl rfl)⟩
